import Mathlib

/-!
# clish: partition quota, libc allocator shim, ordered index, views

A shallow embedding of

* `lub/partition/partition_init.c`     (`lub_partition_kill`, `lub_partition_init`)
* `lub/partition/partition_sysalloc.c` (`lub_partition_sysalloc`)
* `lubheap/posix/sysheap.c`            (the libc replacement entry points)
* `lub/bintree/bintree_findfirst.c`    (`lub_bintree_findfirst`, `compareleft`)
* `clish/view/view.c`                  (`clish_view_new_command`,
  `clish_view_find_command`, `clish_view_resolve_prefix`)

Pointers are natural numbers with `0` for `NULL`.  `size_t` values are natural
numbers below `2 ^ w`, where `w` is the width of `size_t`; every operation that
can wrap is reduced modulo `2 ^ w` explicitly.
-/

namespace Clish

/-! ## Machine arithmetic -/

/-- Subtraction of two `size_t` values of width `w` (wraps modulo `2 ^ w`). -/
def size_sub (w a b : Nat) : Nat := (a + 2 ^ w - b) % 2 ^ w

/-- Left shift by one of a `size_t` value of width `w` (wraps modulo `2 ^ w`). -/
def size_shl1 (w a : Nat) : Nat := (a <<< 1) % 2 ^ w

/-! ## Partition (`lub/partition`) -/

/-- The fields of `lub_partition_spec_t` that the sources read. -/
structure lub_partition_spec_t where
  memory_limit : Nat
  min_segment_size : Nat
deriving DecidableEq, Repr

/-- The record `lub_partition_t`: the four fields written by
`lub_partition_init`.  `m_global_heap` is a pointer (`0` is `NULL`). -/
structure lub_partition_t where
  m_spec : lub_partition_spec_t
  m_partition_ceiling : Nat
  m_dying : Bool
  m_global_heap : Nat
deriving DecidableEq, Repr

/-- The C library allocator that `lub_partition_sysalloc` calls, over an
abstract state `O` of the operating system: `malloc os n` gives the returned
pointer (`0` when the request is refused) and the next state. -/
structure Libc (O : Type) where
  malloc : O → Nat → Nat × O

/-- Modelled from the spec: `lub_partition_time_to_die` is called by
`lub_partition_kill` but is not among the sources.  The spec says that kill
"attempts immediate teardown" and that a dying partition "converges toward zero
outstanding heaps": the attempt either completes, after which the partition no
longer exists (`none`), or, while a heap of the partition is still outstanding,
leaves the record as it found it. -/
def lub_partition_time_to_die (outstanding : Bool) (this : lub_partition_t) :
    Option lub_partition_t :=
  if outstanding then some this else none

/-- `lub_partition_kill` (partition_init.c, lines 9-15). -/
def lub_partition_kill (outstanding : Bool) (this : lub_partition_t) :
    Option lub_partition_t :=
  let this1 := { this with m_dying := true }
  lub_partition_time_to_die outstanding this1

/-- `lub_partition_init` (partition_init.c, lines 17-25).  `sizeof_partition`
is `sizeof(lub_partition_t)`; the record that is overwritten is not an input
because every field is assigned. -/
def lub_partition_init (w sizeof_partition : Nat) (spec : lub_partition_spec_t) :
    lub_partition_t :=
  { m_spec := spec
    m_partition_ceiling := size_sub w spec.memory_limit sizeof_partition
    m_dying := false
    m_global_heap := 0 }

/-- `lub_partition_sysalloc` (partition_sysalloc.c, lines 9-23): the returned
pointer, the partition afterwards and the state of the C library afterwards. -/
def lub_partition_sysalloc {O : Type} (libc : Libc O) (w : Nat)
    (this : lub_partition_t) (os : O) (required : Nat) :
    Nat × lub_partition_t × O :=
  if required < this.m_partition_ceiling then
    let r := libc.malloc os required
    if r.1 ≠ 0 then
      (r.1,
       { this with
         m_partition_ceiling := size_sub w this.m_partition_ceiling required },
       r.2)
    else
      (r.1, this, r.2)
  else
    (0, this, os)

/-- A C library whose `malloc` hands out consecutive addresses
upwards and refuses a request that would pass `limit`; the state is the next
free address. -/
def bumpLibc (limit : Nat) : Libc Nat where
  malloc := fun next n => if next + n ≤ limit then (next, next + n) else (0, next)

/-- A C library whose `malloc` refuses every request. -/
def refusingLibc : Libc Unit where
  malloc := fun _ _ => (0, ())

/-- A run of `lub_partition_sysalloc` calls, one per request in order: the sum
of the sizes of the requests that succeeded, with the final partition and
library state. -/
def sysalloc_run {O : Type} (libc : Libc O) (w : Nat) :
    lub_partition_t → O → List Nat → Nat × lub_partition_t × O
  | this, os, [] => (0, this, os)
  | this, os, required :: rest =>
    let r := lub_partition_sysalloc libc w this os required
    let t := sysalloc_run libc w r.2.1 r.2.2 rest
    ((if r.1 ≠ 0 then required else 0) + t.1, t.2.1, t.2.2)

/-- The partition used in the examples: ceiling 1024, spec
`{memory_limit = 1024, min_segment_size = 64}`, not dying, no global heap. -/
def examplePartition : lub_partition_t :=
  { m_spec := { memory_limit := 1024, min_segment_size := 64 }
    m_partition_ceiling := 1024
    m_dying := false
    m_global_heap := 0 }

/-! ## The libc replacement (`lubheap/posix/sysheap.c`) -/

/-- The enumeration `lub_heap_status_t` of `lub/heap.h`, as named in
`sysheap_check_status`. -/
inductive lub_heap_status_t
  | LUB_HEAP_OK | LUB_HEAP_FAILED | LUB_HEAP_CORRUPTED | LUB_HEAP_DOUBLE_FREE
  | LUB_HEAP_INVALID_POINTER
deriving DecidableEq, Repr

/-- The enumeration `lub_heap_align_t` of `lub/heap.h`, as named in `malloc`
and `memalign`. -/
inductive lub_heap_align_t
  | LUB_HEAP_ALIGN_NATIVE
  | LUB_HEAP_ALIGN_2_POWER_2 | LUB_HEAP_ALIGN_2_POWER_3
  | LUB_HEAP_ALIGN_2_POWER_4 | LUB_HEAP_ALIGN_2_POWER_5
  | LUB_HEAP_ALIGN_2_POWER_6 | LUB_HEAP_ALIGN_2_POWER_7
  | LUB_HEAP_ALIGN_2_POWER_8 | LUB_HEAP_ALIGN_2_POWER_9
  | LUB_HEAP_ALIGN_2_POWER_10 | LUB_HEAP_ALIGN_2_POWER_11
  | LUB_HEAP_ALIGN_2_POWER_12 | LUB_HEAP_ALIGN_2_POWER_13
  | LUB_HEAP_ALIGN_2_POWER_14 | LUB_HEAP_ALIGN_2_POWER_15
  | LUB_HEAP_ALIGN_2_POWER_16 | LUB_HEAP_ALIGN_2_POWER_17
  | LUB_HEAP_ALIGN_2_POWER_18 | LUB_HEAP_ALIGN_2_POWER_19
  | LUB_HEAP_ALIGN_2_POWER_20 | LUB_HEAP_ALIGN_2_POWER_21
  | LUB_HEAP_ALIGN_2_POWER_22 | LUB_HEAP_ALIGN_2_POWER_23
  | LUB_HEAP_ALIGN_2_POWER_24 | LUB_HEAP_ALIGN_2_POWER_25
  | LUB_HEAP_ALIGN_2_POWER_26 | LUB_HEAP_ALIGN_2_POWER_27
deriving DecidableEq, Repr

/-- The alignment class named `LUB_HEAP_ALIGN_2_POWER_k`, for the exponents
`k` that have one. -/
def align_2_power : Nat → Option lub_heap_align_t
  | 2 => some .LUB_HEAP_ALIGN_2_POWER_2
  | 3 => some .LUB_HEAP_ALIGN_2_POWER_3
  | 4 => some .LUB_HEAP_ALIGN_2_POWER_4
  | 5 => some .LUB_HEAP_ALIGN_2_POWER_5
  | 6 => some .LUB_HEAP_ALIGN_2_POWER_6
  | 7 => some .LUB_HEAP_ALIGN_2_POWER_7
  | 8 => some .LUB_HEAP_ALIGN_2_POWER_8
  | 9 => some .LUB_HEAP_ALIGN_2_POWER_9
  | 10 => some .LUB_HEAP_ALIGN_2_POWER_10
  | 11 => some .LUB_HEAP_ALIGN_2_POWER_11
  | 12 => some .LUB_HEAP_ALIGN_2_POWER_12
  | 13 => some .LUB_HEAP_ALIGN_2_POWER_13
  | 14 => some .LUB_HEAP_ALIGN_2_POWER_14
  | 15 => some .LUB_HEAP_ALIGN_2_POWER_15
  | 16 => some .LUB_HEAP_ALIGN_2_POWER_16
  | 17 => some .LUB_HEAP_ALIGN_2_POWER_17
  | 18 => some .LUB_HEAP_ALIGN_2_POWER_18
  | 19 => some .LUB_HEAP_ALIGN_2_POWER_19
  | 20 => some .LUB_HEAP_ALIGN_2_POWER_20
  | 21 => some .LUB_HEAP_ALIGN_2_POWER_21
  | 22 => some .LUB_HEAP_ALIGN_2_POWER_22
  | 23 => some .LUB_HEAP_ALIGN_2_POWER_23
  | 24 => some .LUB_HEAP_ALIGN_2_POWER_24
  | 25 => some .LUB_HEAP_ALIGN_2_POWER_25
  | 26 => some .LUB_HEAP_ALIGN_2_POWER_26
  | 27 => some .LUB_HEAP_ALIGN_2_POWER_27
  | _ => none

/-- `VX_PAGE_SIZE` (sysheap.c, line 30). -/
def VX_PAGE_SIZE : Nat := 4096

/-- `DEFAULT_CHUNK_SIZE` (sysheap.c, line 42). -/
def DEFAULT_CHUNK_SIZE : Nat := 128 * 1024

/-- What the shim calls and does not define: `sbrk`, `memset` and the heap
operations of `lub/heap.h`, as transitions of an abstract world `W` (the
operating system and the memory that holds the heap).  Heaps and blocks are
pointers.  `lub_heap_realloc world heap ptr size align` gives the status, the
value left in `*ptr` and the next world. -/
structure Platform (W : Type) where
  sbrk : W → Nat → Nat × W
  memset : W → Nat → Nat → Nat → W
  lub_heap_create : W → Nat → Nat → Nat × W
  lub_heap_add_segment : W → Nat → Nat → Nat → W
  lub_heap_realloc :
    W → Nat → Nat → Nat → lub_heap_align_t → lub_heap_status_t × Nat × W

/-- One call that leaves the shim, or one line written to `stderr`, with the
arguments and the result of the call. -/
inductive Event
  | sbrk (increment result : Nat)
  | memset (ptr value length : Nat)
  | lub_heap_create (segment length heap : Nat)
  | lub_heap_add_segment (heap segment length : Nat)
  | lub_heap_realloc (heap ptr size : Nat) (align : lub_heap_align_t)
      (status : lub_heap_status_t) (ptr_out : Nat)
  | stderr (place : String) (status : lub_heap_status_t) (block size : Nat)
deriving DecidableEq, Repr

/-- The static data of sysheap.c: the flag `initialised` of
`sysheap_init_memory`, the field `heap` of `sysMemPartition` (`0` until a heap
is created), the world outside the shim, and the history of the calls made so
far (oldest first). -/
structure sysheap_t (W : Type) where
  initialised : Bool
  heap : Nat
  world : W
  trace : List Event

/-- `sysheap_segment_alloc` (sysheap.c, lines 45-49). -/
def sysheap_segment_alloc {W : Type} (P : Platform W) (s : sysheap_t W)
    (required : Nat) : Nat × sysheap_t W :=
  let r := P.sbrk s.world required
  (r.1, { s with world := r.2, trace := s.trace ++ [Event.sbrk required r.1] })

/-- The length computed from `required` in `sysheap_init_memory` (lines 64-69)
and again in `sysheap_extend_memory` (lines 84-89). -/
def segment_length (w required : Nat) : Nat :=
  let required1 :=
    if required < DEFAULT_CHUNK_SIZE >>> 1 then DEFAULT_CHUNK_SIZE >>> 1
    else required
  size_shl1 w required1

/-- `sysheap_init_memory` (sysheap.c, lines 51-77). -/
def sysheap_init_memory {W : Type} (P : Platform W) (w : Nat) (s : sysheap_t W)
    (required : Nat) : sysheap_t W :=
  if s.initialised = false then
    let s1 := { s with initialised := true }
    let required2 := segment_length w required
    let seg := sysheap_segment_alloc P s1 required2
    let h := P.lub_heap_create seg.2.world seg.1 required2
    { seg.2 with
      heap := h.1
      world := h.2
      trace := seg.2.trace ++ [Event.lub_heap_create seg.1 required2 h.1] }
  else
    s

/-- `sysheap_extend_memory` (sysheap.c, lines 79-99). -/
def sysheap_extend_memory {W : Type} (P : Platform W) (w : Nat) (s : sysheap_t W)
    (required : Nat) : Bool × sysheap_t W :=
  let required2 := segment_length w required
  let seg := sysheap_segment_alloc P s required2
  if seg.1 ≠ 0 then
    (true,
     { seg.2 with
       world := P.lub_heap_add_segment seg.2.world seg.2.heap seg.1 required2
       trace :=
         seg.2.trace ++ [Event.lub_heap_add_segment seg.2.heap seg.1 required2] })
  else
    (false, seg.2)

/-- `sysheap_check_status` (sysheap.c, lines 101-145): one line on `stderr`
for every status other than `LUB_HEAP_OK`. -/
def sysheap_check_status {W : Type} (s : sysheap_t W) (status : lub_heap_status_t)
    (place : String) (block size : Nat) : sysheap_t W :=
  if status ≠ lub_heap_status_t.LUB_HEAP_OK then
    { s with trace := s.trace ++ [Event.stderr place status block size] }
  else
    s

/-- The call `lub_heap_realloc(this->heap,&pBlock,size,align)`: the status,
the value left in `pBlock`, and the state afterwards. -/
def call_lub_heap_realloc {W : Type} (P : Platform W) (s : sysheap_t W)
    (pBlock size : Nat) (align : lub_heap_align_t) :
    lub_heap_status_t × Nat × sysheap_t W :=
  let r := P.lub_heap_realloc s.world s.heap pBlock size align
  (r.1, r.2.1,
   { s with
     world := r.2.2
     trace :=
       s.trace ++ [Event.lub_heap_realloc s.heap pBlock size align r.1 r.2.1] })

/-- `malloc` (sysheap.c, lines 181-210). -/
def malloc {W : Type} (P : Platform W) (w : Nat) (s : sysheap_t W) (nBytes : Nat) :
    Nat × sysheap_t W :=
  let s1 := sysheap_init_memory P w s nBytes
  let r1 := call_lub_heap_realloc P s1 0 nBytes .LUB_HEAP_ALIGN_NATIVE
  let r :=
    if r1.1 = lub_heap_status_t.LUB_HEAP_FAILED then
      let e := sysheap_extend_memory P w r1.2.2 nBytes
      if e.1 then call_lub_heap_realloc P e.2 r1.2.1 nBytes .LUB_HEAP_ALIGN_NATIVE
      else (r1.1, r1.2.1, e.2)
    else r1
  (r.2.1, sysheap_check_status r.2.2 r.1 "malloc" 0 nBytes)

/-- `calloc` (sysheap.c, lines 147-157). -/
def calloc {W : Type} (P : Platform W) (w : Nat) (s : sysheap_t W)
    (nmemb size : Nat) : Nat × sysheap_t W :=
  let m := malloc P w s ((nmemb * size) % 2 ^ w)
  if m.1 ≠ 0 then
    (m.1,
     { m.2 with
       world := P.memset m.2.world m.1 0 size
       trace := m.2.trace ++ [Event.memset m.1 0 size] })
  else
    m

/-- `free` (sysheap.c, lines 165-179). -/
def free {W : Type} (P : Platform W) (w : Nat) (s : sysheap_t W) (ptr : Nat) :
    sysheap_t W :=
  let s1 := sysheap_init_memory P w s 0
  let r := call_lub_heap_realloc P s1 ptr 0 .LUB_HEAP_ALIGN_NATIVE
  sysheap_check_status r.2.2 r.1 "free" r.2.1 0

/-- `cfree` (sysheap.c, lines 159-163). -/
def cfree {W : Type} (P : Platform W) (w : Nat) (s : sysheap_t W) (ptr : Nat) :
    sysheap_t W :=
  free P w s ptr

/-- The `switch` of `memalign` (sysheap.c, lines 221-250): the class assigned to
`align`, or `none` for the `default` label, which sets the status to
`LUB_HEAP_FAILED` and leaves `align` unassigned. -/
def memalign_align : Nat → Option lub_heap_align_t
  | 4 => some .LUB_HEAP_ALIGN_2_POWER_2
  | 8 => some .LUB_HEAP_ALIGN_2_POWER_3
  | 16 => some .LUB_HEAP_ALIGN_2_POWER_4
  | 32 => some .LUB_HEAP_ALIGN_2_POWER_5
  | 64 => some .LUB_HEAP_ALIGN_2_POWER_6
  | 128 => some .LUB_HEAP_ALIGN_2_POWER_7
  | 256 => some .LUB_HEAP_ALIGN_2_POWER_8
  | 512 => some .LUB_HEAP_ALIGN_2_POWER_9
  | 1024 => some .LUB_HEAP_ALIGN_2_POWER_10
  | 2048 => some .LUB_HEAP_ALIGN_2_POWER_11
  | 4096 => some .LUB_HEAP_ALIGN_2_POWER_12
  | 8192 => some .LUB_HEAP_ALIGN_2_POWER_13
  | 16384 => some .LUB_HEAP_ALIGN_2_POWER_14
  | 32768 => some .LUB_HEAP_ALIGN_2_POWER_15
  | 65536 => some .LUB_HEAP_ALIGN_2_POWER_16
  | 131072 => some .LUB_HEAP_ALIGN_2_POWER_17
  | 262144 => some .LUB_HEAP_ALIGN_2_POWER_18
  | 524288 => some .LUB_HEAP_ALIGN_2_POWER_19
  | 1048576 => some .LUB_HEAP_ALIGN_2_POWER_20
  | 2097152 => some .LUB_HEAP_ALIGN_2_POWER_21
  | 4194304 => some .LUB_HEAP_ALIGN_2_POWER_22
  | 8388608 => some .LUB_HEAP_ALIGN_2_POWER_23
  | 16777216 => some .LUB_HEAP_ALIGN_2_POWER_24
  | 33554432 => some .LUB_HEAP_ALIGN_2_POWER_25
  | 67108864 => some .LUB_HEAP_ALIGN_2_POWER_26
  | 134217728 => some .LUB_HEAP_ALIGN_2_POWER_27
  | _ => none

/-- `memalign` (sysheap.c, lines 212-273). -/
def memalign {W : Type} (P : Platform W) (w : Nat) (s : sysheap_t W)
    (alignment nBytes : Nat) : Nat × sysheap_t W :=
  let r :=
    match memalign_align alignment with
    | some align =>
      let r1 := call_lub_heap_realloc P s 0 nBytes align
      if r1.1 = lub_heap_status_t.LUB_HEAP_FAILED then
        let e := sysheap_extend_memory P w r1.2.2 nBytes
        if e.1 then call_lub_heap_realloc P e.2 r1.2.1 nBytes align
        else (r1.1, r1.2.1, e.2)
      else r1
    | none => (lub_heap_status_t.LUB_HEAP_FAILED, 0, s)
  let s3 := sysheap_check_status r.2.2 r.1 "memalign" r.2.1 nBytes
  (if r.1 = lub_heap_status_t.LUB_HEAP_OK then r.2.1 else 0, s3)

/-- `realloc` (sysheap.c, lines 275-305). -/
def realloc {W : Type} (P : Platform W) (w : Nat) (s : sysheap_t W)
    (old_ptr nBytes : Nat) : Nat × sysheap_t W :=
  let s1 := sysheap_init_memory P w s nBytes
  let r1 := call_lub_heap_realloc P s1 old_ptr nBytes .LUB_HEAP_ALIGN_NATIVE
  let r :=
    if r1.1 = lub_heap_status_t.LUB_HEAP_FAILED then
      let e := sysheap_extend_memory P w r1.2.2 nBytes
      if e.1 then call_lub_heap_realloc P e.2 r1.2.1 nBytes .LUB_HEAP_ALIGN_NATIVE
      else (r1.1, r1.2.1, e.2)
    else r1
  let s3 := sysheap_check_status r.2.2 r.1 "realloc" r.2.1 nBytes
  (if r.1 = lub_heap_status_t.LUB_HEAP_OK then r.2.1 else 0, s3)

/-- `valloc` (sysheap.c, lines 307-311). -/
def valloc {W : Type} (P : Platform W) (w : Nat) (s : sysheap_t W) (size : Nat) :
    Nat × sysheap_t W :=
  memalign P w s VX_PAGE_SIZE size

/-- The state of the shim when the process starts: the statics are zero and
nothing has been called. -/
def sysheap_start {W : Type} (world : W) : sysheap_t W :=
  { initialised := false, heap := 0, world := world, trace := [] }

/-- The sequence of entry-point calls a process makes. -/
inductive Call
  | malloc (nBytes : Nat)
  | calloc (nmemb size : Nat)
  | realloc (old_ptr nBytes : Nat)
  | free (ptr : Nat)
  | cfree (ptr : Nat)
  | memalign (alignment nBytes : Nat)
  | valloc (size : Nat)
deriving DecidableEq, Repr

/-- The state after one entry-point call. -/
def step {W : Type} (P : Platform W) (w : Nat) (s : sysheap_t W) : Call → sysheap_t W
  | .malloc nBytes => (malloc P w s nBytes).2
  | .calloc nmemb size => (calloc P w s nmemb size).2
  | .realloc old_ptr nBytes => (realloc P w s old_ptr nBytes).2
  | .free ptr => free P w s ptr
  | .cfree ptr => cfree P w s ptr
  | .memalign alignment nBytes => (memalign P w s alignment nBytes).2
  | .valloc size => (valloc P w s size).2

/-- The state after a sequence of entry-point calls, first call first. -/
def run {W : Type} (P : Platform W) (w : Nat) (s : sysheap_t W) (calls : List Call) :
    sysheap_t W :=
  calls.foldl (step P w) s

/-- The `lub_heap_realloc` calls of a history: size, alignment class and
returned status of each, in order. -/
def realloc_calls (t : List Event) :
    List (Nat × lub_heap_align_t × lub_heap_status_t) :=
  t.filterMap fun e =>
    match e with
    | .lub_heap_realloc _ _ size align status _ => some (size, align, status)
    | _ => none

/-- The `sbrk` calls of a history: increment and returned segment of each. -/
def sbrk_calls (t : List Event) : List (Nat × Nat) :=
  t.filterMap fun e =>
    match e with
    | .sbrk increment result => some (increment, result)
    | _ => none

/-- The `lub_heap_add_segment` calls of a history: heap, segment and length. -/
def add_segment_calls (t : List Event) : List (Nat × Nat × Nat) :=
  t.filterMap fun e =>
    match e with
    | .lub_heap_add_segment heap segment length => some (heap, segment, length)
    | _ => none

/-- The `lub_heap_create` calls of a history: segment, length and the heap
returned. -/
def create_calls (t : List Event) : List (Nat × Nat × Nat) :=
  t.filterMap fun e =>
    match e with
    | .lub_heap_create segment length heap => some (segment, length, heap)
    | _ => none

/-- The statuses reported on `stderr` in a history. -/
def reported (t : List Event) : List lub_heap_status_t :=
  t.filterMap fun e =>
    match e with
    | .stderr _ status _ _ => some status
    | _ => none

/-- What `sysheap_check_status` reports for a status: nothing for
`LUB_HEAP_OK`, the status itself otherwise. -/
def report_of (status : lub_heap_status_t) : List lub_heap_status_t :=
  if status ≠ lub_heap_status_t.LUB_HEAP_OK then [status] else []

/-- A small platform for the examples.  The world is the program break and the
number of free bytes in the heap.  `sbrk` moves the break and returns the old
one; a heap is named by the address of its first segment; an allocation takes
its size from the free bytes and fails when they do not suffice; releasing and
`memset` change nothing. -/
def toyPlatform : Platform (Nat × Nat) where
  sbrk := fun world increment => (world.1, (world.1 + increment, world.2))
  memset := fun world _ _ _ => world
  lub_heap_create := fun world segment length => (segment, (world.1, length))
  lub_heap_add_segment := fun world _ _ length => (world.1, world.2 + length)
  lub_heap_realloc := fun world _ ptr size _ =>
    if size = 0 then (.LUB_HEAP_OK, ptr, world)
    else if size ≤ world.2 then (.LUB_HEAP_OK, 4096 + size, (world.1, world.2 - size))
    else (.LUB_HEAP_FAILED, ptr, world)


/-- A state of the shim after start-up on `toyPlatform`: a heap at address 8192
with 100 free bytes, break at 16384, no history. -/
def toyRunning : sysheap_t (Nat × Nat) :=
  { initialised := true, heap := 8192, world := (16384, 100), trace := [] }

/-- A platform like `toyPlatform` with the program break kept as an offset
above address 4096, so that `sbrk`, which returns the old break, never returns
the null pointer. -/
def sbrkPlatform : Platform (Nat × Nat) where
  sbrk := fun world increment => (4096 + world.1, (world.1 + increment, world.2))
  memset := toyPlatform.memset
  lub_heap_create := toyPlatform.lub_heap_create
  lub_heap_add_segment := toyPlatform.lub_heap_add_segment
  lub_heap_realloc := toyPlatform.lub_heap_realloc

/-- A state of the shim after start-up on `sbrkPlatform`: a heap at address
8192 with 100 free bytes, break at 16384, no history. -/
def sbrkRunning : sysheap_t (Nat × Nat) :=
  { initialised := true, heap := 8192, world := (12288, 100), trace := [] }

/-- What `sbrk` gives back, as `sysheap_segment_alloc` returns it: the previous
program break, or `(void *)-1` when the break cannot be moved; never the null
pointer. -/
def sbrk_never_null {W : Type} (P : Platform W) : Prop :=
  ∀ (world : W) (increment : Nat), (P.sbrk world increment).1 ≠ 0

/-- The block that `malloc` (sysheap.c, lines 191-204), `memalign` (lines
254-267) and `realloc` (lines 286-299) have in common: the heap call, and on
`LUB_HEAP_FAILED` the extension and the second heap call. -/
def retry_block {W : Type} (P : Platform W) (w : Nat) (s : sysheap_t W)
    (pBlock nBytes : Nat) (align : lub_heap_align_t) :
    lub_heap_status_t × Nat × sysheap_t W :=
  let r1 := call_lub_heap_realloc P s pBlock nBytes align
  if r1.1 = lub_heap_status_t.LUB_HEAP_FAILED then
    let e := sysheap_extend_memory P w r1.2.2 nBytes
    if e.1 then call_lub_heap_realloc P e.2 r1.2.1 nBytes align
    else (r1.1, r1.2.1, e.2)
  else r1

/-- The events that a call added to the history: what the history of `after`
holds beyond that of `before`. -/
def events_since {W : Type} (before after : sysheap_t W) : List Event :=
  after.trace.drop before.trace.length

/-- The calls of a history, in order, without the lines written to `stderr`. -/
def calls_of (t : List Event) : List Event :=
  t.filter fun e =>
    match e with
    | .stderr _ _ _ _ => false
    | _ => true

/-- The retry behaviour of an entry point that starts its heap work in state
`s1` with `pBlock`, `nBytes` and `align`, and adds the events `ev`, branch by
branch of the code, the branch for a null segment included:

* first status other than `LUB_HEAP_FAILED`: the one `lub_heap_realloc` call
  and nothing else, and that status is the one reported;
* first status `LUB_HEAP_FAILED` and `sbrk` returns null: the
  `lub_heap_realloc` call and the `sbrk` call only, and `LUB_HEAP_FAILED` is
  reported;
* first status `LUB_HEAP_FAILED` and `sbrk` returns a segment: the
  `lub_heap_realloc` call, the `sbrk` call, `lub_heap_add_segment` of that
  segment, and a second `lub_heap_realloc` with the same size and class, whose
  status is the one reported;
* in every case at most two `lub_heap_realloc` calls, one `sbrk` call and one
  `lub_heap_add_segment` call. -/
def retry_contract {W : Type} (P : Platform W) (w : Nat) (s1 : sysheap_t W)
    (pBlock nBytes : Nat) (align : lub_heap_align_t) (ev : List Event) : Prop :=
  let first := P.lub_heap_realloc s1.world s1.heap pBlock nBytes align
  let length := segment_length w nBytes
  let seg := P.sbrk first.2.2 length
  let second :=
    P.lub_heap_realloc (P.lub_heap_add_segment seg.2 s1.heap seg.1 length) s1.heap
      first.2.1 nBytes align
  (first.1 ≠ lub_heap_status_t.LUB_HEAP_FAILED →
    calls_of ev = [Event.lub_heap_realloc s1.heap pBlock nBytes align first.1 first.2.1] ∧
    reported ev = report_of first.1) ∧
  (first.1 = lub_heap_status_t.LUB_HEAP_FAILED → seg.1 = 0 →
    calls_of ev =
      [Event.lub_heap_realloc s1.heap pBlock nBytes align first.1 first.2.1,
       Event.sbrk length seg.1] ∧
    reported ev = [lub_heap_status_t.LUB_HEAP_FAILED]) ∧
  (first.1 = lub_heap_status_t.LUB_HEAP_FAILED → seg.1 ≠ 0 →
    calls_of ev =
      [Event.lub_heap_realloc s1.heap pBlock nBytes align first.1 first.2.1,
       Event.sbrk length seg.1,
       Event.lub_heap_add_segment s1.heap seg.1 length,
       Event.lub_heap_realloc s1.heap first.2.1 nBytes align second.1 second.2.1] ∧
    reported ev = report_of second.1) ∧
  (realloc_calls ev).length ≤ 2 ∧ (sbrk_calls ev).length ≤ 1 ∧
  (add_segment_calls ev).length ≤ 1

/-- The retry behaviour that the spec gives an entry point which starts its
heap work in state `s1` with `pBlock`, `nBytes` and `align`, and adds the
events `ev`:

* first status other than `LUB_HEAP_FAILED`: the one `lub_heap_realloc` call
  and nothing else (no segment requested, no retry), and that status is the one
  reported;
* first status `LUB_HEAP_FAILED`: the `lub_heap_realloc` call, one `sbrk` call,
  `lub_heap_add_segment` of the segment obtained, and a second
  `lub_heap_realloc` with the same size and class, whose status is the one
  reported;
* in every case at most two `lub_heap_realloc` calls, one `sbrk` call and one
  `lub_heap_add_segment` call. -/
def retry_claim {W : Type} (P : Platform W) (w : Nat) (s1 : sysheap_t W)
    (pBlock nBytes : Nat) (align : lub_heap_align_t) (ev : List Event) : Prop :=
  let first := P.lub_heap_realloc s1.world s1.heap pBlock nBytes align
  let length := segment_length w nBytes
  let seg := P.sbrk first.2.2 length
  let second :=
    P.lub_heap_realloc (P.lub_heap_add_segment seg.2 s1.heap seg.1 length) s1.heap
      first.2.1 nBytes align
  (first.1 ≠ lub_heap_status_t.LUB_HEAP_FAILED →
    calls_of ev = [Event.lub_heap_realloc s1.heap pBlock nBytes align first.1 first.2.1] ∧
    reported ev = report_of first.1) ∧
  (first.1 = lub_heap_status_t.LUB_HEAP_FAILED →
    calls_of ev =
      [Event.lub_heap_realloc s1.heap pBlock nBytes align first.1 first.2.1,
       Event.sbrk length seg.1,
       Event.lub_heap_add_segment s1.heap seg.1 length,
       Event.lub_heap_realloc s1.heap first.2.1 nBytes align second.1 second.2.1] ∧
    reported ev = report_of second.1) ∧
  (realloc_calls ev).length ≤ 2 ∧ (sbrk_calls ev).length ≤ 1 ∧
  (add_segment_calls ev).length ≤ 1

/-- The `memset` calls of a history: pointer, value and length of each. -/
def memset_calls (t : List Event) : List (Nat × Nat × Nat) :=
  t.filterMap fun e =>
    match e with
    | .memset ptr value length => some (ptr, value, length)
    | _ => none

/-- A platform whose world is the content of memory, one byte per address.
`sbrk` always returns address 16384, the heap is named by its first segment,
every allocation is granted at address 20000, and `memset` stores its value in
the bytes from `ptr` up to `ptr + length`. -/
def bytePlatform : Platform (Nat → Nat) where
  sbrk := fun world _ => (16384, world)
  memset := fun world ptr value length =>
    fun a => if ptr ≤ a ∧ a < ptr + length then value else world a
  lub_heap_create := fun world segment _ => (segment, world)
  lub_heap_add_segment := fun world _ _ _ => world
  lub_heap_realloc := fun world _ _ _ _ => (.LUB_HEAP_OK, 20000, world)

/-- Memory in which every byte holds 255. -/
def dirtyMemory : Nat → Nat := fun _ => 255

/-- A heap that writes the caller's pointer only when it succeeds: when the
status of `lub_heap_realloc` is not `LUB_HEAP_OK` the pointer variable is left
as it was.  Nothing in the sources makes the heap behave so; `malloc` depends on
it, `realloc` and `memalign` do not. -/
def heap_writes_on_ok {W : Type} (P : Platform W) : Prop :=
  ∀ (world : W) (heap ptr size : Nat) (align : lub_heap_align_t),
    (P.lub_heap_realloc world heap ptr size align).1 ≠ lub_heap_status_t.LUB_HEAP_OK →
    (P.lub_heap_realloc world heap ptr size align).2.1 = ptr

/-- The results of the `lub_heap_realloc` calls of a history: the status and
the value left in the pointer variable, in order. -/
def heap_results (t : List Event) : List (lub_heap_status_t × Nat) :=
  t.filterMap fun e =>
    match e with
    | .lub_heap_realloc _ _ _ _ status ptr_out => some (status, ptr_out)
    | _ => none

/-- The final heap status of a history with the pointer the heap left: the
result of the last `lub_heap_realloc` call, if there was one. -/
def last_heap_result (t : List Event) : Option (lub_heap_status_t × Nat) :=
  (heap_results t).getLast?

/-- What an allocating entry point owes its caller, for the events `ev` of one
call and the pointer `result` it returned: there was a heap call; the final
status, that of the last heap call, is reported on `stderr` exactly when it is
not `LUB_HEAP_OK`; with `LUB_HEAP_OK` the pointer left by the heap is returned;
with any other status the null pointer is returned, given `heap_contract`. -/
def status_contract (ev : List Event) (result : Nat) (heap_contract : Prop) : Prop :=
  ∃ status ptr, last_heap_result ev = some (status, ptr) ∧
    reported ev = report_of status ∧
    (status = lub_heap_status_t.LUB_HEAP_OK → result = ptr) ∧
    (heap_contract → status ≠ lub_heap_status_t.LUB_HEAP_OK → result = 0)

/-! ## Ordered index (`lub/bintree`) and views (`clish/view`) -/

/-- The nodes reachable from a root pointer: `leaf` is the null pointer, and a
node carries its owner (the client node in which the `lub_bintree_node_t` is
embedded) between its left and right subtrees. -/
inductive bintree (α : Type) where
  | leaf : bintree α
  | node (left : bintree α) (owner : α) (right : bintree α) : bintree α
deriving DecidableEq, Repr

/-- The owners of a tree from left to right. -/
def bintree.inorder {α : Type} : bintree α → List α
  | .leaf => []
  | .node l x r => l.inorder ++ x :: r.inorder

/-- The record `lub_bintree_t`, with the fields that `lub_bintree_findfirst`
and `clish_view_init` name: the root, the offset of the node inside its owner,
the compare function (client node against key, where the key pointer may be
null) and the get-key function. -/
structure lub_bintree_t (α κ : Type) where
  root : bintree α
  node_offset : Nat
  compareFn : α → Option κ → Int
  getkeyFn : α → κ

/-- The step of a splay to the left of the left child (zig-zig): `s` is the
splayed left-left subtree `ll`; when it is empty the left child `y` is rotated
to the top, otherwise its root is. -/
def splay_left_left {α : Type} (s ll : bintree α) (y : α) (lr : bintree α) (x : α)
    (r : bintree α) : bintree α :=
  match s with
  | .leaf => .node ll y (.node lr x r)
  | .node a z b => .node a z (.node b y (.node lr x r))

/-- The step of a splay to the right of the left child (zig-zag): `s` is the
splayed left-right subtree `lr`. -/
def splay_left_right {α : Type} (s ll : bintree α) (y : α) (lr : bintree α) (x : α)
    (r : bintree α) : bintree α :=
  match s with
  | .leaf => .node ll y (.node lr x r)
  | .node a z b => .node (.node ll y a) z (.node b x r)

/-- The step of a splay to the right of the right child (zig-zig): `s` is the
splayed right-right subtree `rr`. -/
def splay_right_right {α : Type} (s l : bintree α) (x : α) (rl : bintree α) (y : α)
    (rr : bintree α) : bintree α :=
  match s with
  | .leaf => .node (.node l x rl) y rr
  | .node a z b => .node (.node (.node l x rl) y a) z b

/-- The step of a splay to the left of the right child (zig-zag): `s` is the
splayed right-left subtree `rl`. -/
def splay_right_left {α : Type} (s l : bintree α) (x : α) (rl : bintree α) (y : α)
    (rr : bintree α) : bintree α :=
  match s with
  | .leaf => .node (.node l x rl) y rr
  | .node a z b => .node (.node l x a) z (.node b y rr)

/-- The splay of the node `x` whose search continues at its left child `y`;
`sll` and `slr` are the splayed subtrees of `y`. -/
def splay_left {α κ : Type} (this : lub_bintree_t α κ) (key : Option κ)
    (sll slr ll : bintree α) (y : α) (lr : bintree α) (x : α) (r : bintree α) :
    bintree α :=
  if this.compareFn y key > 0 then splay_left_left sll ll y lr x r
  else if this.compareFn y key < 0 then splay_left_right slr ll y lr x r
  else .node ll y (.node lr x r)

/-- The splay of the node `x` whose search continues at its right child `y`;
`srl` and `srr` are the splayed subtrees of `y`. -/
def splay_right {α κ : Type} (this : lub_bintree_t α κ) (key : Option κ)
    (srl srr l : bintree α) (x : α) (rl : bintree α) (y : α) (rr : bintree α) :
    bintree α :=
  if this.compareFn y key < 0 then splay_right_right srr l x rl y rr
  else if this.compareFn y key > 0 then splay_right_left srl l x rl y rr
  else .node (.node l x rl) y rr

/-- Modelled from the spec: `lub_bintree_splay` (lub/bintree) is not among the
sources.  The spec has the index be a splay tree, "a self-balancing binary
search tree that moves recently accessed nodes toward the root via rotations",
whose search "splays the found (or nearest) node to the root".  The search
goes left where the compare function of the tree gives a positive value for
the node and the key, right where it gives a negative one, and stops at zero or
where there is no child; the node where it stops is rotated to the root, two
levels at a time (zig-zig, zig-zag) and by a single rotation at the end.  The
result is the new root. -/
def lub_bintree_splay {α κ : Type} (this : lub_bintree_t α κ) :
    bintree α → Option κ → bintree α
  | .leaf, _ => .leaf
  | .node .leaf x .leaf, _ => .node .leaf x .leaf
  | .node .leaf x (.node rl y rr), key =>
    if this.compareFn x key < 0 then
      splay_right this key (lub_bintree_splay this rl key) (lub_bintree_splay this rr key)
        .leaf x rl y rr
    else .node .leaf x (.node rl y rr)
  | .node (.node ll y lr) x .leaf, key =>
    if this.compareFn x key > 0 then
      splay_left this key (lub_bintree_splay this ll key) (lub_bintree_splay this lr key)
        ll y lr x .leaf
    else .node (.node ll y lr) x .leaf
  | .node (.node ll y lr) x (.node rl z rr), key =>
    if this.compareFn x key > 0 then
      splay_left this key (lub_bintree_splay this ll key) (lub_bintree_splay this lr key)
        ll y lr x (.node rl z rr)
    else if this.compareFn x key < 0 then
      splay_right this key (lub_bintree_splay this rl key) (lub_bintree_splay this rr key)
        (.node ll y lr) x rl z rr
    else .node (.node ll y lr) x (.node rl z rr)

/-- `compareleft` (bintree_findfirst.c, lines 72-79). -/
def compareleft {α κ : Type} (_clientnode : α) (_clientkey : Option κ) : Int := 1

/-- `lub_bintree_findfirst` (bintree_findfirst.c, lines 39-63): the client node
returned (`none` for `NULL`) and the tree afterwards.  The client node of a
node (`lub_bintree_getclientnode`) is its owner. -/
def lub_bintree_findfirst {α κ : Type} (this : lub_bintree_t α κ) :
    Option α × lub_bintree_t α κ :=
  let client_compare := this.compareFn
  let this1 := { this with compareFn := compareleft }
  let this2 := { this1 with root := lub_bintree_splay this1 this1.root none }
  let this3 := { this2 with compareFn := client_compare }
  match this3.root with
  | .leaf => (none, this3)
  | .node _ owner _ => (some owner, this3)

/-- Modelled from the spec: `lub_bintree_insert` (lub/bintree) is not among
the sources.  The spec: "fails (returns a duplicate indicator) if an
equal-keyed owner already exists; otherwise splays the new node to the root",
and a failed attempt "leaves the tree unchanged".  The duplicate indicator is
the `-1` that `clish_view_new_command` tests for.  Otherwise the tree is
splayed around the new key and the new node becomes the root, with the old
root to its right when the old root is greater and to its left otherwise. -/
def lub_bintree_insert {α κ : Type} (this : lub_bintree_t α κ) (clientnode : α) :
    Int × lub_bintree_t α κ :=
  let key := some (this.getkeyFn clientnode)
  if this.root.inorder.any (fun owner => this.compareFn owner key = 0) then
    (-1, this)
  else
    match lub_bintree_splay this this.root key with
    | .leaf => (0, { this with root := .node .leaf clientnode .leaf })
    | .node a y b =>
      if this.compareFn y key > 0 then
        (0, { this with root := .node a clientnode (.node .leaf y b) })
      else
        (0, { this with root := .node (.node a y .leaf) clientnode b })

/-- Modelled from the spec: `lub_bintree_find` (lub/bintree) is not among the
sources.  The spec: "locates the owner whose key matches; as a side effect,
splays the found (or nearest) node to the root"; an empty tree or a key that no
owner has gives the "no node" value. -/
def lub_bintree_find {α κ : Type} (this : lub_bintree_t α κ) (key : κ) :
    Option α × lub_bintree_t α κ :=
  (this.root.inorder.find? (fun owner => this.compareFn owner (some key) = 0),
   { this with root := lub_bintree_splay this this.root (some key) })

/-- What the sources use of a command (`clish_command_t`): its name and its
help text (null for the startup command). -/
structure clish_command_t where
  name : String
  text : Option String
deriving DecidableEq, Repr

/-- Modelled from the spec: `clish_command_new` (clish/command) is not among
the sources; the spec has the command tree "keyed by name strings".  The new
command holds the name and the help text it was given. -/
def clish_command_new (name : String) (help : Option String) : clish_command_t :=
  { name := name, text := help }

/-- The record `clish_view_t` as `clish_view_init` fills it: name, prompt and
the tree of commands. -/
structure clish_view_t where
  name : String
  prompt : Option String
  tree : lub_bintree_t clish_command_t String

/-- `clish_view_new_command` (view.c, lines 116-137): the command returned
(`none` for `NULL`) and the view afterwards. -/
def clish_view_new_command (this : clish_view_t) (name : String)
    (help : Option String) : Option clish_command_t × clish_view_t :=
  let cmd := clish_command_new name help
  if help ≠ none then
    let r := lub_bintree_insert this.tree cmd
    if r.1 = -1 then
      (none, { this with tree := r.2 })
    else
      (some cmd, { this with tree := r.2 })
  else
    (some cmd, this)

/-- `clish_view_find_command` (view.c, lines 211-216). -/
def clish_view_find_command (this : clish_view_t) (name : String) :
    Option clish_command_t × clish_view_t :=
  let r := lub_bintree_find this.tree name
  (r.1, { this with tree := r.2 })

/-- The loop of `clish_view_resolve_prefix` (view.c, lines 159-178) over the
arguments that remain, with the current `buffer` and `result`. -/
def resolve_prefix_loop (this : clish_view_t) :
    List String → String → Option clish_command_t → Option clish_command_t × clish_view_t
  | [], _, result => (result, this)
  | arg :: rest, buffer, result =>
    let buffer1 := buffer ++ arg
    let r := clish_view_find_command this buffer1
    match r.1 with
    | none => (result, r.2)
    | some cmd => resolve_prefix_loop r.2 rest (buffer1 ++ " ") (some cmd)

/-- `clish_view_resolve_prefix` (view.c, lines 147-185), given the words of the
line as `lub_argv_new` splits it. -/
def clish_view_resolve_prefix (this : clish_view_t) (words : List String) :
    Option clish_command_t × clish_view_t :=
  resolve_prefix_loop this words "" none

/-- The compare function of a client keeps an order of the owners by key:
an owner above the key of another is matched by the other being below its key,
and "below" is transitive. -/
structure lawful_compare {α κ : Type} (this : lub_bintree_t α κ) : Prop where
  antisymm : ∀ a b, this.compareFn b (some (this.getkeyFn a)) > 0 →
    this.compareFn a (some (this.getkeyFn b)) < 0
  trans : ∀ a b c, this.compareFn a (some (this.getkeyFn b)) < 0 →
    this.compareFn b (some (this.getkeyFn c)) < 0 →
    this.compareFn a (some (this.getkeyFn c)) < 0

/-- The search-tree order under the compare function of `this`: at every node
the owners to the left are below the key of the node and the owners to the
right are above it. -/
def bst_ordered {α κ : Type} (this : lub_bintree_t α κ) : bintree α → Prop
  | .leaf => True
  | .node l x r =>
    (∀ a ∈ l.inorder, this.compareFn a (some (this.getkeyFn x)) < 0) ∧
    (∀ b ∈ r.inorder, this.compareFn b (some (this.getkeyFn x)) > 0) ∧
    bst_ordered this l ∧ bst_ordered this r

/-- A valid binary search tree under the compare function of the client. -/
def valid_bst {α κ : Type} (this : lub_bintree_t α κ) : Prop :=
  lawful_compare this ∧ bst_ordered this this.root

/-- A tree keyed by the names of its commands: the key of a command is its
name, and a command compares equal to its own name. -/
def keyed_by_name (tree : lub_bintree_t clish_command_t String) : Prop :=
  (∀ c, tree.getkeyFn c = c.name) ∧ (∀ c, tree.compareFn c (some c.name) = 0)

/-- A compare function for natural numbers as owners and keys: the sign of
owner minus key. -/
def natCompare (owner : Nat) (key : Option Nat) : Int :=
  match key with
  | none => 0
  | some k => (owner : Int) - (k : Int)

/-- A search tree of the numbers 1 to 5, with root 4. -/
def exampleTree : lub_bintree_t Nat Nat :=
  { root := .node (.node (.node .leaf 1 .leaf) 2 (.node .leaf 3 .leaf)) 4
      (.node .leaf 5 .leaf)
    node_offset := 8
    compareFn := natCompare
    getkeyFn := id }

/-- The comparison of two strings given as lists of character codes, in the
manner of `strcmp`: decided by the first position where they differ. -/
def strcmp_codes : List Nat → List Nat → Int
  | [], [] => 0
  | [], _ :: _ => -1
  | _ :: _, [] => 1
  | a :: as, b :: bs =>
    if a < b then -1 else if b < a then 1 else strcmp_codes as bs

/-- A compare function for commands by name, in the manner of the
`strcmp(this->name,key)` of `clish_view_bt_compare` (view.c, lines 20-28). -/
def nameCompare (cmd : clish_command_t) (key : Option String) : Int :=
  match key with
  | none => 0
  | some k => strcmp_codes (cmd.name.data.map Char.toNat) (k.data.map Char.toNat)

/-- A view without commands. -/
def emptyView : clish_view_t :=
  { name := "main"
    prompt := none
    tree :=
      { root := .leaf
        node_offset := 0
        compareFn := nameCompare
        getkeyFn := fun cmd => cmd.name } }

/-- A view whose one command is named `show version`. -/
def showVersionView : clish_view_t :=
  (clish_view_new_command emptyView "show version" (some "Show the version")).2

/-! ## Theorems: machine arithmetic -/

/-- Subtracting a smaller `size_t` value from a larger one does not wrap. -/
theorem size_sub_of_le (w a b : Nat) (ha : a < 2 ^ w) (hb : b ≤ a) :
    size_sub w a b = a - b := by
  unfold size_sub
  have h : a + 2 ^ w - b = (a - b) + 2 ^ w := by omega
  rw [h, Nat.add_mod_right, Nat.mod_eq_of_lt (by omega)]

/-- Subtracting a larger `size_t` value from a smaller one wraps around. -/
theorem size_sub_of_lt (w a b : Nat) (hb : b < 2 ^ w) (hab : a < b) :
    size_sub w a b = 2 ^ w - (b - a) := by
  unfold size_sub
  have h : a + 2 ^ w - b = 2 ^ w - (b - a) := by omega
  rw [h, Nat.mod_eq_of_lt (by omega)]

/-! ## Theorems: partition -/

/-- The pointer returned by `lub_partition_sysalloc` is non-null exactly when
the request is below the ceiling and `malloc` returned memory. -/
theorem sysalloc_result_ne_zero_iff {O : Type} (libc : Libc O) (w : Nat)
    (this : lub_partition_t) (os : O) (required : Nat) :
    (lub_partition_sysalloc libc w this os required).1 ≠ 0 ↔
      (required < this.m_partition_ceiling ∧ (libc.malloc os required).1 ≠ 0) := by
  unfold lub_partition_sysalloc
  by_cases h1 : required < this.m_partition_ceiling
  · by_cases h2 : (libc.malloc os required).1 = 0
    · simp [h1, h2]
    · simp [h1, h2]
  · simp [h1]

/-- The partition left by a `lub_partition_sysalloc` call that returned
memory: only the ceiling differs, by the wrapped difference. -/
theorem sysalloc_partition_of_ne_zero {O : Type} (libc : Libc O) (w : Nat)
    (this : lub_partition_t) (os : O) (required : Nat)
    (h : (lub_partition_sysalloc libc w this os required).1 ≠ 0) :
    (lub_partition_sysalloc libc w this os required).2.1 =
      { this with
        m_partition_ceiling := size_sub w this.m_partition_ceiling required } := by
  have h' := (sysalloc_result_ne_zero_iff libc w this os required).1 h
  unfold lub_partition_sysalloc
  simp [h'.1, h'.2]

/-- The partition left by a `lub_partition_sysalloc` call that returned null
is the partition it was given. -/
theorem sysalloc_partition_of_eq_zero {O : Type} (libc : Libc O) (w : Nat)
    (this : lub_partition_t) (os : O) (required : Nat)
    (h : (lub_partition_sysalloc libc w this os required).1 = 0) :
    (lub_partition_sysalloc libc w this os required).2.1 = this := by
  unfold lub_partition_sysalloc at h ⊢
  by_cases h1 : required < this.m_partition_ceiling
  · by_cases h2 : (libc.malloc os required).1 = 0
    · simp [h1, h2]
    · simp [h1, h2] at h
  · simp [h1]

/-- The ceiling left by a `lub_partition_sysalloc` call that returned memory
is the old ceiling less the request. -/
theorem sysalloc_ceiling_of_ne_zero {O : Type} (libc : Libc O) (w : Nat)
    (this : lub_partition_t) (os : O) (required : Nat)
    (hc : this.m_partition_ceiling < 2 ^ w)
    (h : (lub_partition_sysalloc libc w this os required).1 ≠ 0) :
    (lub_partition_sysalloc libc w this os required).2.1.m_partition_ceiling =
      this.m_partition_ceiling - required := by
  have h' := (sysalloc_result_ne_zero_iff libc w this os required).1 h
  rw [sysalloc_partition_of_ne_zero libc w this os required h]
  exact size_sub_of_le w _ _ hc (Nat.le_of_lt h'.1)

/-- C1, as stated, is false: with ceiling 1024 a request of 500 is below the
ceiling, yet `lub_partition_sysalloc` returns null when `malloc` refuses. -/
theorem sysalloc_iff_below_ceiling_fails :
    ¬ ((lub_partition_sysalloc refusingLibc 64 examplePartition () 500).1 ≠ 0 ↔
        500 < examplePartition.m_partition_ceiling) := by
  decide

/-- C1, amended: `lub_partition_sysalloc` returns non-null memory if and only
if `required` is below the ceiling `C` and the underlying `malloc` returns
non-null memory; when it succeeds the new ceiling is exactly `C - required`. -/
theorem sysalloc_succeeds_iff {O : Type} (libc : Libc O) (w : Nat)
    (this : lub_partition_t) (os : O) (required : Nat)
    (hc : this.m_partition_ceiling < 2 ^ w) :
    ((lub_partition_sysalloc libc w this os required).1 ≠ 0 ↔
      (required < this.m_partition_ceiling ∧ (libc.malloc os required).1 ≠ 0)) ∧
    ((lub_partition_sysalloc libc w this os required).1 ≠ 0 →
      (lub_partition_sysalloc libc w this os required).2.1.m_partition_ceiling =
        this.m_partition_ceiling - required) := by
  exact ⟨sysalloc_result_ne_zero_iff libc w this os required,
    sysalloc_ceiling_of_ne_zero libc w this os required hc⟩

/-- Witness for C1: ceiling 1024, `sysalloc(500)` on a C library with room
succeeds and leaves 524. -/
theorem sysalloc_succeeds_iff_witness :
    examplePartition.m_partition_ceiling < 2 ^ 64 ∧
    (((lub_partition_sysalloc (bumpLibc 1048576) 64 examplePartition 4096 500).1 ≠ 0 ↔
      (500 < examplePartition.m_partition_ceiling ∧
        ((bumpLibc 1048576).malloc 4096 500).1 ≠ 0)) ∧
    ((lub_partition_sysalloc (bumpLibc 1048576) 64 examplePartition 4096 500).1 ≠ 0 →
      (lub_partition_sysalloc (bumpLibc 1048576) 64 examplePartition 4096
          500).2.1.m_partition_ceiling =
        examplePartition.m_partition_ceiling - 500)) :=
  ⟨by decide, sysalloc_succeeds_iff (bumpLibc 1048576) 64 examplePartition 4096 500
    (by decide)⟩

/-- The scenario of the spec: with ceiling 1024, `sysalloc(2000)` returns null
and leaves the ceiling alone; `sysalloc(500)`, granted by `malloc`, leaves the
ceiling at 524. -/
theorem sysalloc_scenario :
    (lub_partition_sysalloc (bumpLibc 1048576) 64 examplePartition 4096 2000).1 = 0 ∧
    (lub_partition_sysalloc (bumpLibc 1048576) 64 examplePartition 4096
      2000).2.1.m_partition_ceiling = 1024 ∧
    (lub_partition_sysalloc (bumpLibc 1048576) 64 examplePartition 4096 500).1 = 4096 ∧
    (lub_partition_sysalloc (bumpLibc 1048576) 64 examplePartition 4096
      500).2.1.m_partition_ceiling = 524 := by
  decide

/-- C2, as stated, is false: after `lub_partition_kill` has marked the example
partition dying (teardown could not complete), `sysalloc(500)` still returns
memory and takes 500 bytes off the ceiling. -/
theorem sysalloc_after_kill_succeeds :
    lub_partition_kill true examplePartition =
      some { examplePartition with m_dying := true } ∧
    (lub_partition_sysalloc (bumpLibc 1048576) 64
      { examplePartition with m_dying := true } 4096 500).1 = 4096 ∧
    (lub_partition_sysalloc (bumpLibc 1048576) 64
      { examplePartition with m_dying := true } 4096 500).2.1.m_partition_ceiling
        = 524 := by
  decide

/-- C2, amended: `lub_partition_kill` sets the dying flag, and
`lub_partition_sysalloc` does not read it: on the partition that kill leaves
behind, a later sysalloc call returns the pointer it would have returned without
the kill, which is non-null exactly when the request is below the ceiling and
`malloc` returns memory. -/
theorem sysalloc_ignores_dying {O : Type} (libc : Libc O) (w : Nat)
    (outstanding : Bool) (this killed : lub_partition_t) (os : O) (required : Nat)
    (hk : lub_partition_kill outstanding this = some killed) :
    killed.m_dying = true ∧
    (lub_partition_sysalloc libc w killed os required).1 =
      (lub_partition_sysalloc libc w this os required).1 ∧
    ((lub_partition_sysalloc libc w killed os required).1 ≠ 0 ↔
      (required < this.m_partition_ceiling ∧ (libc.malloc os required).1 ≠ 0)) := by
  unfold lub_partition_kill lub_partition_time_to_die at hk
  cases outstanding with
  | false => simp at hk
  | true =>
    simp at hk
    subst hk
    refine ⟨rfl, ?_, ?_⟩
    · unfold lub_partition_sysalloc
      by_cases h1 : required < this.m_partition_ceiling
      · by_cases h2 : (libc.malloc os required).1 = 0
        · simp [h1, h2]
        · simp [h1, h2]
      · simp [h1]
    · exact sysalloc_result_ne_zero_iff libc w _ os required

/-- Witness for C2: the example partition, killed while a heap is outstanding,
then asked for 500 bytes. -/
theorem sysalloc_ignores_dying_witness :
    lub_partition_kill true examplePartition =
      some { examplePartition with m_dying := true } ∧
    (({ examplePartition with m_dying := true } : lub_partition_t).m_dying = true ∧
    (lub_partition_sysalloc (bumpLibc 1048576) 64
        { examplePartition with m_dying := true } 4096 500).1 =
      (lub_partition_sysalloc (bumpLibc 1048576) 64 examplePartition 4096 500).1 ∧
    ((lub_partition_sysalloc (bumpLibc 1048576) 64
        { examplePartition with m_dying := true } 4096 500).1 ≠ 0 ↔
      (500 < examplePartition.m_partition_ceiling ∧
        ((bumpLibc 1048576).malloc 4096 500).1 ≠ 0))) :=
  ⟨by decide,
   sysalloc_ignores_dying (bumpLibc 1048576) 64 true examplePartition
     { examplePartition with m_dying := true } 4096 500 (by decide)⟩

/-- The fields that `lub_partition_init` sets without arithmetic: the spec is
stored unchanged, the dying flag is cleared and there is no global heap. -/
theorem init_fields (w sizeof_partition : Nat) (spec : lub_partition_spec_t) :
    (lub_partition_init w sizeof_partition spec).m_spec = spec ∧
    (lub_partition_init w sizeof_partition spec).m_dying = false ∧
    (lub_partition_init w sizeof_partition spec).m_global_heap = 0 :=
  ⟨rfl, rfl, rfl⟩

/-- When the memory limit covers the partition record, the ceiling set by
`lub_partition_init` is the limit minus the size of the record. -/
theorem init_ceiling_of_le (w sizeof_partition : Nat) (spec : lub_partition_spec_t)
    (hl : spec.memory_limit < 2 ^ w) (hs : sizeof_partition ≤ spec.memory_limit) :
    (lub_partition_init w sizeof_partition spec).m_partition_ceiling =
      spec.memory_limit - sizeof_partition :=
  size_sub_of_le w _ _ hl hs

/-- C3 at the failing inputs: when the memory limit is smaller than the
partition record, the subtraction in `lub_partition_init` wraps; the ceiling is
`2 ^ w - (sizeof_partition - memory_limit)`, which is more than the memory limit
itself, while the other three fields are as the claim says. -/
theorem init_ceiling_wraps (w sizeof_partition : Nat) (spec : lub_partition_spec_t)
    (hs : sizeof_partition < 2 ^ w) (hl : spec.memory_limit < sizeof_partition) :
    (lub_partition_init w sizeof_partition spec).m_partition_ceiling =
      2 ^ w - (sizeof_partition - spec.memory_limit) ∧
    spec.memory_limit <
      (lub_partition_init w sizeof_partition spec).m_partition_ceiling ∧
    (lub_partition_init w sizeof_partition spec).m_spec = spec ∧
    (lub_partition_init w sizeof_partition spec).m_dying = false ∧
    (lub_partition_init w sizeof_partition spec).m_global_heap = 0 := by
  have h : (lub_partition_init w sizeof_partition spec).m_partition_ceiling =
      2 ^ w - (sizeof_partition - spec.memory_limit) :=
    size_sub_of_lt w _ _ hs hl
  refine ⟨h, ?_, rfl, rfl, rfl⟩
  rw [h]
  omega

/-- Witness for C3: a 64-byte record on a 64-bit machine and a memory limit of
32 bytes give a ceiling of `2 ^ 64 - 32`. -/
theorem init_ceiling_wraps_witness :
    (64 < 2 ^ 64 ∧ (32 : Nat) < 64) ∧
    ((lub_partition_init 64 64 ⟨32, 16⟩).m_partition_ceiling = 2 ^ 64 - (64 - 32) ∧
    32 < (lub_partition_init 64 64 ⟨32, 16⟩).m_partition_ceiling ∧
    (lub_partition_init 64 64 ⟨32, 16⟩).m_spec = ⟨32, 16⟩ ∧
    (lub_partition_init 64 64 ⟨32, 16⟩).m_dying = false ∧
    (lub_partition_init 64 64 ⟨32, 16⟩).m_global_heap = 0) :=
  ⟨⟨by decide, by decide⟩, init_ceiling_wraps 64 64 ⟨32, 16⟩ (by decide) (by decide)⟩

/-- What a run of sysalloc calls conserves: the bytes granted plus the ceiling
left over are the ceiling the run started with. -/
theorem sysalloc_run_conserves {O : Type} (libc : Libc O) (w : Nat)
    (requests : List Nat) :
    ∀ (this : lub_partition_t) (os : O), this.m_partition_ceiling < 2 ^ w →
      (sysalloc_run libc w this os requests).1 +
        (sysalloc_run libc w this os requests).2.1.m_partition_ceiling =
      this.m_partition_ceiling := by
  induction requests with
  | nil => intro this os _; simp [sysalloc_run]
  | cons required rest ih =>
    intro this os hc
    simp only [sysalloc_run]
    by_cases h : (lub_partition_sysalloc libc w this os required).1 = 0
    · have hp := sysalloc_partition_of_eq_zero libc w this os required h
      have := ih (lub_partition_sysalloc libc w this os required).2.1
        (lub_partition_sysalloc libc w this os required).2.2 (by rw [hp]; exact hc)
      rw [hp] at this ⊢
      simp [h]
      simpa [hp] using this
    · have hlt := ((sysalloc_result_ne_zero_iff libc w this os required).1 h).1
      have hceil := sysalloc_ceiling_of_ne_zero libc w this os required hc h
      have := ih (lub_partition_sysalloc libc w this os required).2.1
        (lub_partition_sysalloc libc w this os required).2.2 (by omega)
      simp only [ne_eq, h, not_false_eq_true, if_true]
      omega

/-- The quota holds whenever the memory limit covers the partition record: after
`lub_partition_init`, the sizes of the sysalloc requests that succeeded add up
to less than the memory limit. -/
theorem sysalloc_run_below_limit {O : Type} (libc : Libc O) (w sizeof_partition : Nat)
    (spec : lub_partition_spec_t) (os : O) (requests : List Nat)
    (hpos : 0 < sizeof_partition) (hl : spec.memory_limit < 2 ^ w)
    (hs : sizeof_partition ≤ spec.memory_limit) :
    (sysalloc_run libc w (lub_partition_init w sizeof_partition spec) os
      requests).1 < spec.memory_limit := by
  have hc := init_ceiling_of_le w sizeof_partition spec hl hs
  have := sysalloc_run_conserves libc w requests
    (lub_partition_init w sizeof_partition spec) os (by omega)
  omega

/-- C4 at a failing input: a 64-byte partition record, 64-bit `size_t` and a
memory limit of 32 bytes.  After `lub_partition_init` two sysalloc calls of 500
bytes both succeed; the 1000 bytes granted are not below the limit of 32. -/
theorem sysalloc_run_exceeds_limit :
    (lub_partition_init 64 64 ⟨32, 16⟩).m_partition_ceiling = 18446744073709551584 ∧
    (sysalloc_run (bumpLibc 1048576) 64 (lub_partition_init 64 64 ⟨32, 16⟩) 4096
      [500, 500]).1 = 1000 ∧
    ¬ ((sysalloc_run (bumpLibc 1048576) 64 (lub_partition_init 64 64 ⟨32, 16⟩) 4096
      [500, 500]).1 < (⟨32, 16⟩ : lub_partition_spec_t).memory_limit) := by
  decide

/-- C5: a `lub_partition_sysalloc` call that returns null (ceiling check or
refusal by `malloc`) leaves every field of the partition unchanged; a call that
returns memory changes no field other than the ceiling, which becomes
`ceiling - required`; in both cases the ceiling does not grow; and
`lub_partition_kill` does not change the ceiling. -/
theorem ceiling_frame {O : Type} (libc : Libc O) (w : Nat)
    (this : lub_partition_t) (os : O) (required : Nat) (outstanding : Bool)
    (hc : this.m_partition_ceiling < 2 ^ w) :
    ((lub_partition_sysalloc libc w this os required).1 = 0 →
      (lub_partition_sysalloc libc w this os required).2.1 = this) ∧
    ((lub_partition_sysalloc libc w this os required).1 ≠ 0 →
      (lub_partition_sysalloc libc w this os required).2.1 =
        { this with m_partition_ceiling := this.m_partition_ceiling - required } ∧
      required < this.m_partition_ceiling) ∧
    (lub_partition_sysalloc libc w this os required).2.1.m_partition_ceiling ≤
      this.m_partition_ceiling ∧
    (∀ killed, lub_partition_kill outstanding this = some killed →
      killed.m_partition_ceiling = this.m_partition_ceiling ∧
      killed = { this with m_dying := true }) := by
  have hfail := sysalloc_partition_of_eq_zero libc w this os required
  have hok : (lub_partition_sysalloc libc w this os required).1 ≠ 0 →
      (lub_partition_sysalloc libc w this os required).2.1 =
        { this with m_partition_ceiling := this.m_partition_ceiling - required } ∧
      required < this.m_partition_ceiling := by
    intro h
    have h' := (sysalloc_result_ne_zero_iff libc w this os required).1 h
    rw [sysalloc_partition_of_ne_zero libc w this os required h,
      size_sub_of_le w _ _ hc (Nat.le_of_lt h'.1)]
    exact ⟨rfl, h'.1⟩
  refine ⟨hfail, hok, ?_, ?_⟩
  · by_cases h : (lub_partition_sysalloc libc w this os required).1 = 0
    · rw [hfail h]
    · rw [(hok h).1]
      exact Nat.sub_le _ _
  · intro killed hk
    unfold lub_partition_kill lub_partition_time_to_die at hk
    cases outstanding with
    | false => simp at hk
    | true =>
      simp at hk
      subst hk
      exact ⟨rfl, rfl⟩

/-- Witness for C5: the example partition, a request of 500 bytes. -/
theorem ceiling_frame_witness :
    examplePartition.m_partition_ceiling < 2 ^ 64 ∧
    (((lub_partition_sysalloc (bumpLibc 1048576) 64 examplePartition 4096 500).1 = 0 →
      (lub_partition_sysalloc (bumpLibc 1048576) 64 examplePartition 4096 500).2.1 =
        examplePartition) ∧
    ((lub_partition_sysalloc (bumpLibc 1048576) 64 examplePartition 4096 500).1 ≠ 0 →
      (lub_partition_sysalloc (bumpLibc 1048576) 64 examplePartition 4096 500).2.1 =
        { examplePartition with
          m_partition_ceiling := examplePartition.m_partition_ceiling - 500 } ∧
      500 < examplePartition.m_partition_ceiling) ∧
    (lub_partition_sysalloc (bumpLibc 1048576) 64 examplePartition 4096
        500).2.1.m_partition_ceiling ≤
      examplePartition.m_partition_ceiling ∧
    (∀ killed, lub_partition_kill true examplePartition = some killed →
      killed.m_partition_ceiling = examplePartition.m_partition_ceiling ∧
      killed = { examplePartition with m_dying := true })) :=
  ⟨by decide, ceiling_frame (bumpLibc 1048576) 64 examplePartition 4096 500 true
    (by decide)⟩

/-! ## Theorems: the libc replacement -/

/-- The `switch` of `memalign` assigns a class exactly to the powers of two
from `2 ^ 2` to `2 ^ 27`. -/
theorem memalign_align_isSome_iff (alignment : Nat) :
    (memalign_align alignment).isSome = true ↔
      ∃ k, 2 ≤ k ∧ k ≤ 27 ∧ alignment = 2 ^ k := by
  constructor
  · intro h
    unfold memalign_align at h
    split at h
    all_goals first
      | (exfalso; simp at h; done)
      | (refine ⟨2, ?_⟩; decide)
      | (refine ⟨3, ?_⟩; decide)
      | (refine ⟨4, ?_⟩; decide)
      | (refine ⟨5, ?_⟩; decide)
      | (refine ⟨6, ?_⟩; decide)
      | (refine ⟨7, ?_⟩; decide)
      | (refine ⟨8, ?_⟩; decide)
      | (refine ⟨9, ?_⟩; decide)
      | (refine ⟨10, ?_⟩; decide)
      | (refine ⟨11, ?_⟩; decide)
      | (refine ⟨12, ?_⟩; decide)
      | (refine ⟨13, ?_⟩; decide)
      | (refine ⟨14, ?_⟩; decide)
      | (refine ⟨15, ?_⟩; decide)
      | (refine ⟨16, ?_⟩; decide)
      | (refine ⟨17, ?_⟩; decide)
      | (refine ⟨18, ?_⟩; decide)
      | (refine ⟨19, ?_⟩; decide)
      | (refine ⟨20, ?_⟩; decide)
      | (refine ⟨21, ?_⟩; decide)
      | (refine ⟨22, ?_⟩; decide)
      | (refine ⟨23, ?_⟩; decide)
      | (refine ⟨24, ?_⟩; decide)
      | (refine ⟨25, ?_⟩; decide)
      | (refine ⟨26, ?_⟩; decide)
      | (refine ⟨27, ?_⟩; decide)
  · rintro ⟨k, h2, h27, rfl⟩
    interval_cases k <;> rfl

/-- On a power of two from `2 ^ 2` to `2 ^ 27` the `switch` of `memalign`
assigns the class of that exponent. -/
theorem memalign_align_two_pow (k : Nat) (h2 : 2 ≤ k) (h27 : k ≤ 27) :
    memalign_align (2 ^ k) = align_2_power k ∧ (align_2_power k).isSome = true := by
  interval_cases k <;> exact ⟨rfl, rfl⟩

/-- The state after `sysheap_check_status`: only the history can differ, by
the line written for a status other than `LUB_HEAP_OK`. -/
theorem check_status_eq {W : Type} (s : sysheap_t W) (status : lub_heap_status_t)
    (place : String) (block size : Nat) :
    sysheap_check_status s status place block size =
      { s with
        trace := s.trace ++
          (if status ≠ lub_heap_status_t.LUB_HEAP_OK then
            [Event.stderr place status block size] else []) } := by
  unfold sysheap_check_status
  by_cases h : status = lub_heap_status_t.LUB_HEAP_OK <;> simp [h]

/-- C7: for an alignment that is not a power of two from 4 to `2 ^ 27`,
`memalign` returns the null pointer and reports `LUB_HEAP_FAILED`; it calls
neither `lub_heap_realloc` nor `sbrk` nor `lub_heap_add_segment`: the one event
it adds is the line on `stderr`, and the world (heap included), the heap pointer
and the initialisation flag are as before. -/
theorem memalign_rejects {W : Type} (P : Platform W) (w : Nat) (s : sysheap_t W)
    (alignment nBytes : Nat)
    (h : ¬ ∃ k, 2 ≤ k ∧ k ≤ 27 ∧ alignment = 2 ^ k) :
    (memalign P w s alignment nBytes).1 = 0 ∧
    (memalign P w s alignment nBytes).2.world = s.world ∧
    (memalign P w s alignment nBytes).2.heap = s.heap ∧
    (memalign P w s alignment nBytes).2.initialised = s.initialised ∧
    (memalign P w s alignment nBytes).2.trace =
      s.trace ++ [Event.stderr "memalign" lub_heap_status_t.LUB_HEAP_FAILED 0 nBytes] ∧
    calls_of (events_since s (memalign P w s alignment nBytes).2) = [] ∧
    reported (events_since s (memalign P w s alignment nBytes).2) =
      [lub_heap_status_t.LUB_HEAP_FAILED] := by
  have hn : memalign_align alignment = none := by
    cases hm : memalign_align alignment with
    | none => rfl
    | some c =>
      exact absurd ((memalign_align_isSome_iff alignment).1 (by simp [hm])) h
  simp [memalign, hn, check_status_eq, events_since, calls_of, reported]

/-- Witness for C7: alignment 100 on the toy platform. -/
theorem memalign_rejects_witness :
    (¬ ∃ k, 2 ≤ k ∧ k ≤ 27 ∧ 100 = 2 ^ k) ∧
    ((memalign toyPlatform 64 toyRunning 100 16).1 = 0 ∧
    (memalign toyPlatform 64 toyRunning 100 16).2.world = toyRunning.world ∧
    (memalign toyPlatform 64 toyRunning 100 16).2.heap = toyRunning.heap ∧
    (memalign toyPlatform 64 toyRunning 100 16).2.initialised = toyRunning.initialised ∧
    (memalign toyPlatform 64 toyRunning 100 16).2.trace =
      toyRunning.trace ++
        [Event.stderr "memalign" lub_heap_status_t.LUB_HEAP_FAILED 0 16] ∧
    calls_of (events_since toyRunning (memalign toyPlatform 64 toyRunning 100 16).2) = [] ∧
    reported (events_since toyRunning (memalign toyPlatform 64 toyRunning 100 16).2) =
      [lub_heap_status_t.LUB_HEAP_FAILED]) :=
  have h : ¬ ∃ k, 2 ≤ k ∧ k ≤ 27 ∧ 100 = 2 ^ k := by
    rintro ⟨k, h2, h27, hk⟩
    interval_cases k <;> simp at hk
  ⟨h, memalign_rejects toyPlatform 64 toyRunning 100 16 h⟩

/-- The alignments named in C7 as examples have no class in the `switch`. -/
theorem memalign_align_examples :
    memalign_align 100 = none ∧ memalign_align 0 = none ∧ memalign_align 1 = none ∧
    memalign_align 2 = none ∧ memalign_align (2 ^ 28) = none := by
  decide

/-- `malloc` in terms of the block it shares with `memalign` and `realloc`. -/
theorem malloc_eq {W : Type} (P : Platform W) (w : Nat) (s : sysheap_t W)
    (nBytes : Nat) :
    malloc P w s nBytes =
      ((retry_block P w (sysheap_init_memory P w s nBytes) 0 nBytes
          .LUB_HEAP_ALIGN_NATIVE).2.1,
       sysheap_check_status
         (retry_block P w (sysheap_init_memory P w s nBytes) 0 nBytes
            .LUB_HEAP_ALIGN_NATIVE).2.2
         (retry_block P w (sysheap_init_memory P w s nBytes) 0 nBytes
            .LUB_HEAP_ALIGN_NATIVE).1 "malloc" 0 nBytes) :=
  rfl

/-- The state that `realloc` leaves, in terms of the shared block. -/
theorem realloc_state_eq {W : Type} (P : Platform W) (w : Nat) (s : sysheap_t W)
    (old_ptr nBytes : Nat) :
    (realloc P w s old_ptr nBytes).2 =
      sysheap_check_status
        (retry_block P w (sysheap_init_memory P w s nBytes) old_ptr nBytes
           .LUB_HEAP_ALIGN_NATIVE).2.2
        (retry_block P w (sysheap_init_memory P w s nBytes) old_ptr nBytes
           .LUB_HEAP_ALIGN_NATIVE).1 "realloc"
        (retry_block P w (sysheap_init_memory P w s nBytes) old_ptr nBytes
           .LUB_HEAP_ALIGN_NATIVE).2.1 nBytes :=
  rfl

/-- The state that `memalign` leaves for an alignment with a class, in terms
of the shared block. -/
theorem memalign_state_eq {W : Type} (P : Platform W) (w : Nat) (s : sysheap_t W)
    (alignment nBytes : Nat) (align : lub_heap_align_t)
    (h : memalign_align alignment = some align) :
    (memalign P w s alignment nBytes).2 =
      sysheap_check_status (retry_block P w s 0 nBytes align).2.2
        (retry_block P w s 0 nBytes align).1 "memalign"
        (retry_block P w s 0 nBytes align).2.1 nBytes := by
  simp only [memalign, h]
  rfl

/-- The shared block followed by `sysheap_check_status` keeps the retry
contract, whatever the platform does. -/
theorem retry_block_contract {W : Type} (P : Platform W) (w : Nat) (s1 : sysheap_t W)
    (pBlock nBytes : Nat) (align : lub_heap_align_t) (place : String)
    (block size : Nat) :
    retry_contract P w s1 pBlock nBytes align
      (events_since s1
        (sysheap_check_status (retry_block P w s1 pBlock nBytes align).2.2
          (retry_block P w s1 pBlock nBytes align).1 place block size)) := by
  unfold retry_contract
  by_cases h1 : (P.lub_heap_realloc s1.world s1.heap pBlock nBytes align).1 =
      lub_heap_status_t.LUB_HEAP_FAILED
  · by_cases h2 : (P.sbrk (P.lub_heap_realloc s1.world s1.heap pBlock nBytes align).2.2
        (segment_length w nBytes)).1 = 0
    · simp [retry_block, call_lub_heap_realloc, sysheap_extend_memory,
        sysheap_segment_alloc, check_status_eq, events_since, calls_of, reported,
        realloc_calls, sbrk_calls, add_segment_calls, report_of, h1, h2]
    · simp [retry_block, call_lub_heap_realloc, sysheap_extend_memory,
        sysheap_segment_alloc, check_status_eq, events_since, calls_of, reported,
        realloc_calls, sbrk_calls, add_segment_calls, report_of, h1, h2]
      split <;> simp
  · simp [retry_block, call_lub_heap_realloc, check_status_eq, events_since,
      calls_of, reported, realloc_calls, sbrk_calls, add_segment_calls, report_of, h1]
    split <;> simp

/-- The heap calls of the shared block: one call, or two calls of which the
first returned `LUB_HEAP_FAILED`, all with the size and class it was given. -/
theorem retry_block_realloc_calls {W : Type} (P : Platform W) (w : Nat)
    (s1 : sysheap_t W) (pBlock nBytes : Nat) (align : lub_heap_align_t)
    (place : String) (block size : Nat) :
    (∃ st, realloc_calls (events_since s1
        (sysheap_check_status (retry_block P w s1 pBlock nBytes align).2.2
          (retry_block P w s1 pBlock nBytes align).1 place block size)) =
        [(nBytes, align, st)]) ∨
    (∃ st, realloc_calls (events_since s1
        (sysheap_check_status (retry_block P w s1 pBlock nBytes align).2.2
          (retry_block P w s1 pBlock nBytes align).1 place block size)) =
        [(nBytes, align, lub_heap_status_t.LUB_HEAP_FAILED), (nBytes, align, st)]) := by
  by_cases h1 : (P.lub_heap_realloc s1.world s1.heap pBlock nBytes align).1 =
      lub_heap_status_t.LUB_HEAP_FAILED
  · by_cases h2 : (P.sbrk (P.lub_heap_realloc s1.world s1.heap pBlock nBytes align).2.2
        (segment_length w nBytes)).1 = 0
    · left
      refine ⟨lub_heap_status_t.LUB_HEAP_FAILED, ?_⟩
      simp [retry_block, call_lub_heap_realloc, sysheap_extend_memory,
        sysheap_segment_alloc, check_status_eq, events_since, realloc_calls, h1, h2]
    · right
      refine ⟨(P.lub_heap_realloc
        (P.lub_heap_add_segment
          (P.sbrk (P.lub_heap_realloc s1.world s1.heap pBlock nBytes align).2.2
            (segment_length w nBytes)).2 s1.heap
          (P.sbrk (P.lub_heap_realloc s1.world s1.heap pBlock nBytes align).2.2
            (segment_length w nBytes)).1 (segment_length w nBytes)) s1.heap
        (P.lub_heap_realloc s1.world s1.heap pBlock nBytes align).2.1 nBytes align).1, ?_⟩
      simp [retry_block, call_lub_heap_realloc, sysheap_extend_memory,
        sysheap_segment_alloc, check_status_eq, events_since, realloc_calls, h1, h2]
  · left
    refine ⟨(P.lub_heap_realloc s1.world s1.heap pBlock nBytes align).1, ?_⟩
    simp [retry_block, call_lub_heap_realloc, check_status_eq, events_since,
      realloc_calls, h1]

/-- The heap calls of `memalign` for an alignment with a class: there is one,
and each passes that class. -/
theorem memalign_realloc_calls {W : Type} (P : Platform W) (w : Nat) (s : sysheap_t W)
    (alignment nBytes : Nat) (align : lub_heap_align_t)
    (h : memalign_align alignment = some align) :
    realloc_calls (events_since s (memalign P w s alignment nBytes).2) ≠ [] ∧
    ∀ r ∈ realloc_calls (events_since s (memalign P w s alignment nBytes).2),
      r.2.1 = align := by
  rw [memalign_state_eq P w s alignment nBytes align h]
  rcases retry_block_realloc_calls P w s 0 nBytes align "memalign"
      (retry_block P w s 0 nBytes align).2.1 nBytes with ⟨st, hst⟩ | ⟨st, hst⟩
  · rw [hst]; simp
  · rw [hst]; simp

/-- C6: `memalign` passes a request on to the heap if and only if the
alignment is `2 ^ k` with `2 ≤ k ≤ 27`; every heap call it then makes carries
the class `LUB_HEAP_ALIGN_2_POWER_k`; and `valloc`, whose alignment is
`VX_PAGE_SIZE = 4096 = 2 ^ 12`, always reaches the heap, with the class
`LUB_HEAP_ALIGN_2_POWER_12`. -/
theorem memalign_class {W : Type} (P : Platform W) (w : Nat) (s : sysheap_t W)
    (alignment nBytes size : Nat) :
    (realloc_calls (events_since s (memalign P w s alignment nBytes).2) ≠ [] ↔
      ∃ k, 2 ≤ k ∧ k ≤ 27 ∧ alignment = 2 ^ k) ∧
    (∀ k, 2 ≤ k → k ≤ 27 → alignment = 2 ^ k →
      ∃ c, align_2_power k = some c ∧
        ∀ r ∈ realloc_calls (events_since s (memalign P w s alignment nBytes).2),
          r.2.1 = c) ∧
    (VX_PAGE_SIZE = 2 ^ 12 ∧
      realloc_calls (events_since s (valloc P w s size).2) ≠ [] ∧
      ∀ r ∈ realloc_calls (events_since s (valloc P w s size).2),
        r.2.1 = lub_heap_align_t.LUB_HEAP_ALIGN_2_POWER_12) := by
  refine ⟨⟨fun hne => ?_, fun hk => ?_⟩, fun k h2 h27 hk => ?_, rfl, ?_⟩
  · by_contra hnot
    have hn : memalign_align alignment = none := by
      cases hm : memalign_align alignment with
      | none => rfl
      | some c =>
        exact absurd ((memalign_align_isSome_iff alignment).1 (by simp [hm])) hnot
    apply hne
    simp [memalign, hn, check_status_eq, events_since, realloc_calls]
  · have hs := (memalign_align_isSome_iff alignment).2 hk
    cases hm : memalign_align alignment with
    | none => simp [hm] at hs
    | some c => exact (memalign_realloc_calls P w s alignment nBytes c hm).1
  · subst hk
    have hp := memalign_align_two_pow k h2 h27
    cases hc : align_2_power k with
    | none => simp [hc] at hp
    | some c =>
      refine ⟨c, rfl, ?_⟩
      exact (memalign_realloc_calls P w s (2 ^ k) nBytes c (by rw [hp.1, hc])).2
  · exact memalign_realloc_calls P w s VX_PAGE_SIZE size
      lub_heap_align_t.LUB_HEAP_ALIGN_2_POWER_12 rfl

/-- While the doubling does not pass `2 ^ w`, the segment length is
`2 * max(required, DEFAULT_CHUNK_SIZE / 2)`. -/
theorem segment_length_exact (w required : Nat)
    (h : 2 * max required (DEFAULT_CHUNK_SIZE / 2) < 2 ^ w) :
    segment_length w required = 2 * max required (DEFAULT_CHUNK_SIZE / 2) := by
  unfold segment_length size_shl1
  have hc : DEFAULT_CHUNK_SIZE >>> 1 = DEFAULT_CHUNK_SIZE / 2 := by
    simp [Nat.shiftRight_eq_div_pow]
  rw [hc] at *
  by_cases hlt : required < DEFAULT_CHUNK_SIZE / 2
  · have hm : max required (DEFAULT_CHUNK_SIZE / 2) = DEFAULT_CHUNK_SIZE / 2 :=
      max_eq_right (Nat.le_of_lt hlt)
    rw [hm] at h ⊢
    simp only [hlt, if_true, Nat.shiftLeft_eq, pow_one]
    rw [Nat.mod_eq_of_lt (by omega)]
    omega
  · have hm : max required (DEFAULT_CHUNK_SIZE / 2) = required :=
      max_eq_left (Nat.le_of_not_lt hlt)
    rw [hm] at h ⊢
    simp only [hlt, if_false, Nat.shiftLeft_eq, pow_one]
    rw [Nat.mod_eq_of_lt (by omega)]
    omega

/-- The first `sysheap_init_memory` asks `sbrk` for `segment_length` bytes and
hands the segment to `lub_heap_create` with that same length. -/
theorem init_memory_events {W : Type} (P : Platform W) (w : Nat) (s : sysheap_t W)
    (required : Nat) (h : s.initialised = false) :
    events_since s (sysheap_init_memory P w s required) =
      [Event.sbrk (segment_length w required)
         (P.sbrk s.world (segment_length w required)).1,
       Event.lub_heap_create (P.sbrk s.world (segment_length w required)).1
         (segment_length w required)
         (P.lub_heap_create (P.sbrk s.world (segment_length w required)).2
           (P.sbrk s.world (segment_length w required)).1
           (segment_length w required)).1] := by
  simp [sysheap_init_memory, sysheap_segment_alloc, events_since, h]

/-- A later `sysheap_init_memory` does nothing. -/
theorem init_memory_of_initialised {W : Type} (P : Platform W) (w : Nat)
    (s : sysheap_t W) (required : Nat) (h : s.initialised = true) :
    sysheap_init_memory P w s required = s := by
  simp [sysheap_init_memory, h]

/-- Function `sysheap_extend_memory` asks `sbrk` for `segment_length` bytes and,
when the segment is not null, hands it to `lub_heap_add_segment` with that same
length. -/
theorem extend_memory_events {W : Type} (P : Platform W) (w : Nat) (s : sysheap_t W)
    (required : Nat) :
    events_since s (sysheap_extend_memory P w s required).2 =
      Event.sbrk (segment_length w required)
          (P.sbrk s.world (segment_length w required)).1 ::
        (if (P.sbrk s.world (segment_length w required)).1 ≠ 0 then
          [Event.lub_heap_add_segment s.heap
            (P.sbrk s.world (segment_length w required)).1
            (segment_length w required)]
        else []) := by
  by_cases h : (P.sbrk s.world (segment_length w required)).1 = 0 <;>
    simp [sysheap_extend_memory, sysheap_segment_alloc, events_since, h]

/-- C8 at a failing input: for a request of `2 ^ 63` bytes with a 64-bit
`size_t` (and of `2 ^ 31` bytes with a 32-bit one) the doubling wraps, and the
segment length is 0, not `2 * max(requested, DEFAULT_CHUNK_SIZE / 2)`; both
`sysheap_init_memory` and `sysheap_extend_memory` ask `sbrk` for 0 bytes and
hand the heap a segment of length 0. -/
theorem segment_length_wraps :
    segment_length 64 (2 ^ 63) = 0 ∧
    2 * max (2 ^ 63) (DEFAULT_CHUNK_SIZE / 2) = 2 ^ 64 ∧
    segment_length 32 (2 ^ 31) = 0 ∧
    2 * max (2 ^ 31) (DEFAULT_CHUNK_SIZE / 2) = 2 ^ 32 ∧
    events_since (sysheap_start (16384, 0))
        (sysheap_init_memory toyPlatform 64 (sysheap_start (16384, 0)) (2 ^ 63)) =
      [Event.sbrk 0 16384, Event.lub_heap_create 16384 0 16384] ∧
    events_since toyRunning
        (sysheap_extend_memory toyPlatform 64 toyRunning (2 ^ 63)).2 =
      [Event.sbrk 0 16384, Event.lub_heap_add_segment 8192 16384 0] := by
  decide




/-- The retry at work: `malloc(200)` with 100 free bytes and an `sbrk` that
delivers.  The first heap call fails, 131072 bytes are requested and added, the
second heap call succeeds, and nothing is reported. -/
theorem malloc_retry_example :
    events_since toyRunning (malloc toyPlatform 64 toyRunning 200).2 =
      [Event.lub_heap_realloc 8192 0 200 lub_heap_align_t.LUB_HEAP_ALIGN_NATIVE
         lub_heap_status_t.LUB_HEAP_FAILED 0,
       Event.sbrk 131072 16384,
       Event.lub_heap_add_segment 8192 16384 131072,
       Event.lub_heap_realloc 8192 0 200 lub_heap_align_t.LUB_HEAP_ALIGN_NATIVE
         lub_heap_status_t.LUB_HEAP_OK 4296] ∧
    (malloc toyPlatform 64 toyRunning 200).1 = 4296 := by
  decide

/-- The shared block leaves the initialisation flag and the heap pointer alone
and creates no heap. -/
theorem retry_block_frame {W : Type} (P : Platform W) (w : Nat) (s : sysheap_t W)
    (pBlock nBytes : Nat) (align : lub_heap_align_t) :
    (retry_block P w s pBlock nBytes align).2.2.initialised = s.initialised ∧
    (retry_block P w s pBlock nBytes align).2.2.heap = s.heap ∧
    create_calls (retry_block P w s pBlock nBytes align).2.2.trace =
      create_calls s.trace := by
  by_cases h1 : (P.lub_heap_realloc s.world s.heap pBlock nBytes align).1 =
      lub_heap_status_t.LUB_HEAP_FAILED
  · by_cases h2 : (P.sbrk (P.lub_heap_realloc s.world s.heap pBlock nBytes align).2.2
        (segment_length w nBytes)).1 = 0
    · simp [retry_block, call_lub_heap_realloc, sysheap_extend_memory,
        sysheap_segment_alloc, create_calls, h1, h2]
    · simp [retry_block, call_lub_heap_realloc, sysheap_extend_memory,
        sysheap_segment_alloc, create_calls, h1, h2]
  · simp [retry_block, call_lub_heap_realloc, create_calls, h1]

/-- The first event of the shared block is the heap call on the heap pointer
of the state it starts in. -/
theorem retry_block_first_event {W : Type} (P : Platform W) (w : Nat) (s : sysheap_t W)
    (pBlock nBytes : Nat) (align : lub_heap_align_t) :
    ∃ rest, (retry_block P w s pBlock nBytes align).2.2.trace =
      s.trace ++
        Event.lub_heap_realloc s.heap pBlock nBytes align
          (P.lub_heap_realloc s.world s.heap pBlock nBytes align).1
          (P.lub_heap_realloc s.world s.heap pBlock nBytes align).2.1 :: rest := by
  by_cases h1 : (P.lub_heap_realloc s.world s.heap pBlock nBytes align).1 =
      lub_heap_status_t.LUB_HEAP_FAILED
  · by_cases h2 : (P.sbrk (P.lub_heap_realloc s.world s.heap pBlock nBytes align).2.2
        (segment_length w nBytes)).1 = 0
    · exact ⟨_, by
        simp [retry_block, call_lub_heap_realloc, sysheap_extend_memory,
          sysheap_segment_alloc, h1, h2]
        rfl⟩
    · exact ⟨_, by
        simp [retry_block, call_lub_heap_realloc, sysheap_extend_memory,
          sysheap_segment_alloc, h1, h2]
        rfl⟩
  · exact ⟨[], by simp [retry_block, call_lub_heap_realloc, h1]⟩

/-- Function `sysheap_check_status` leaves the initialisation flag and the heap
pointer alone and creates no heap. -/
theorem check_status_frame {W : Type} (s : sysheap_t W) (status : lub_heap_status_t)
    (place : String) (block size : Nat) :
    (sysheap_check_status s status place block size).initialised = s.initialised ∧
    (sysheap_check_status s status place block size).heap = s.heap ∧
    create_calls (sysheap_check_status s status place block size).trace =
      create_calls s.trace := by
  rw [check_status_eq]
  by_cases h : status = lub_heap_status_t.LUB_HEAP_OK <;> simp [h, create_calls]

/-- Function `sysheap_init_memory` sets the initialisation flag and creates a
heap only when the flag was clear. -/
theorem init_memory_creates {W : Type} (P : Platform W) (w : Nat) (s : sysheap_t W)
    (required : Nat) :
    (sysheap_init_memory P w s required).initialised = true ∧
    (create_calls (sysheap_init_memory P w s required).trace).length =
      (create_calls s.trace).length + (if s.initialised = false then 1 else 0) := by
  by_cases h : s.initialised = false
  · simp [sysheap_init_memory, sysheap_segment_alloc, create_calls, h]
  · simp [sysheap_init_memory, h]

/-- After its lazy initialisation `malloc` creates no heap. -/
theorem malloc_frame {W : Type} (P : Platform W) (w : Nat) (s : sysheap_t W)
    (nBytes : Nat) :
    (malloc P w s nBytes).2.initialised = true ∧
    create_calls (malloc P w s nBytes).2.trace =
      create_calls (sysheap_init_memory P w s nBytes).trace := by
  rw [malloc_eq]
  have h1 := check_status_frame
    (retry_block P w (sysheap_init_memory P w s nBytes) 0 nBytes
      lub_heap_align_t.LUB_HEAP_ALIGN_NATIVE).2.2
    (retry_block P w (sysheap_init_memory P w s nBytes) 0 nBytes
      lub_heap_align_t.LUB_HEAP_ALIGN_NATIVE).1 "malloc" 0 nBytes
  have h2 := retry_block_frame P w (sysheap_init_memory P w s nBytes) 0 nBytes
    lub_heap_align_t.LUB_HEAP_ALIGN_NATIVE
  have h3 := init_memory_creates P w s nBytes
  exact ⟨by rw [h1.1, h2.1, h3.1], by rw [h1.2.2, h2.2.2]⟩

/-- After its lazy initialisation `realloc` creates no heap. -/
theorem realloc_frame {W : Type} (P : Platform W) (w : Nat) (s : sysheap_t W)
    (old_ptr nBytes : Nat) :
    (realloc P w s old_ptr nBytes).2.initialised = true ∧
    create_calls (realloc P w s old_ptr nBytes).2.trace =
      create_calls (sysheap_init_memory P w s nBytes).trace := by
  rw [realloc_state_eq]
  have h1 := check_status_frame
    (retry_block P w (sysheap_init_memory P w s nBytes) old_ptr nBytes
      lub_heap_align_t.LUB_HEAP_ALIGN_NATIVE).2.2
    (retry_block P w (sysheap_init_memory P w s nBytes) old_ptr nBytes
      lub_heap_align_t.LUB_HEAP_ALIGN_NATIVE).1 "realloc"
    (retry_block P w (sysheap_init_memory P w s nBytes) old_ptr nBytes
      lub_heap_align_t.LUB_HEAP_ALIGN_NATIVE).2.1 nBytes
  have h2 := retry_block_frame P w (sysheap_init_memory P w s nBytes) old_ptr nBytes
    lub_heap_align_t.LUB_HEAP_ALIGN_NATIVE
  have h3 := init_memory_creates P w s nBytes
  exact ⟨by rw [h1.1, h2.1, h3.1], by rw [h1.2.2, h2.2.2]⟩

/-- After its lazy initialisation `free` creates no heap. -/
theorem free_frame {W : Type} (P : Platform W) (w : Nat) (s : sysheap_t W)
    (ptr : Nat) :
    (free P w s ptr).initialised = true ∧
    create_calls (free P w s ptr).trace =
      create_calls (sysheap_init_memory P w s 0).trace := by
  have h3 := init_memory_creates P w s 0
  unfold free
  simp only []
  rw [(check_status_frame _ _ _ _ _).1, (check_status_frame _ _ _ _ _).2.2]
  simp [call_lub_heap_realloc, create_calls, h3.1]

/-- After the `malloc` it starts with, `calloc` creates no heap. -/
theorem calloc_frame {W : Type} (P : Platform W) (w : Nat) (s : sysheap_t W)
    (nmemb size : Nat) :
    (calloc P w s nmemb size).2.initialised = true ∧
    create_calls (calloc P w s nmemb size).2.trace =
      create_calls (sysheap_init_memory P w s ((nmemb * size) % 2 ^ w)).trace := by
  have h := malloc_frame P w s ((nmemb * size) % 2 ^ w)
  unfold calloc
  by_cases hm : (malloc P w s ((nmemb * size) % 2 ^ w)).1 = 0
  · simp only [hm, ne_eq, not_true_eq_false, if_false]
    exact h
  · simp only [hm, ne_eq, not_false_eq_true, if_true]
    refine ⟨h.1, ?_⟩
    rw [← h.2]
    simp [create_calls]

/-- Function `memalign` never initialises: it leaves the initialisation flag
and the heap pointer as they are and creates no heap. -/
theorem memalign_frame {W : Type} (P : Platform W) (w : Nat) (s : sysheap_t W)
    (alignment nBytes : Nat) :
    (memalign P w s alignment nBytes).2.initialised = s.initialised ∧
    (memalign P w s alignment nBytes).2.heap = s.heap ∧
    create_calls (memalign P w s alignment nBytes).2.trace = create_calls s.trace := by
  cases hm : memalign_align alignment with
  | none => simp [memalign, hm, check_status_eq, create_calls]
  | some align =>
    rw [memalign_state_eq P w s alignment nBytes align hm]
    have h1 := check_status_frame (retry_block P w s 0 nBytes align).2.2
      (retry_block P w s 0 nBytes align).1 "memalign"
      (retry_block P w s 0 nBytes align).2.1 nBytes
    have h2 := retry_block_frame P w s 0 nBytes align
    exact ⟨by rw [h1.1, h2.1], by rw [h1.2.1, h2.2.1], by rw [h1.2.2, h2.2.2]⟩

/-- One entry-point call keeps the bookkeeping of heap creation: no heap has
been created while the flag is clear, and at most one has been created. -/
theorem step_created_once {W : Type} (P : Platform W) (w : Nat) (s : sysheap_t W)
    (c : Call) (h0 : s.initialised = false → create_calls s.trace = [])
    (h1 : (create_calls s.trace).length ≤ 1) :
    ((step P w s c).initialised = false → create_calls (step P w s c).trace = []) ∧
    (create_calls (step P w s c).trace).length ≤ 1 := by
  have init_case : ∀ (n : Nat) (t : sysheap_t W), t.initialised = true →
      create_calls t.trace = create_calls (sysheap_init_memory P w s n).trace →
      (t.initialised = false → create_calls t.trace = []) ∧
        (create_calls t.trace).length ≤ 1 := by
    intro n t ht hc
    refine ⟨fun hf => absurd (ht.symm.trans hf) (by decide), ?_⟩
    rw [hc, (init_memory_creates P w s n).2]
    by_cases hi : s.initialised = false
    · simp [hi, h0 hi]
    · simp [hi]; exact h1
  cases c with
  | malloc nBytes =>
    exact init_case nBytes _ (malloc_frame P w s nBytes).1 (malloc_frame P w s nBytes).2
  | calloc nmemb size =>
    exact init_case _ _ (calloc_frame P w s nmemb size).1 (calloc_frame P w s nmemb size).2
  | realloc old_ptr nBytes =>
    exact init_case nBytes _ (realloc_frame P w s old_ptr nBytes).1
      (realloc_frame P w s old_ptr nBytes).2
  | free ptr => exact init_case 0 _ (free_frame P w s ptr).1 (free_frame P w s ptr).2
  | cfree ptr => exact init_case 0 _ (free_frame P w s ptr).1 (free_frame P w s ptr).2
  | memalign alignment nBytes =>
    have hf := memalign_frame P w s alignment nBytes
    simp only [step]
    rw [hf.1, hf.2.2]
    exact ⟨h0, h1⟩
  | valloc size =>
    have hf := memalign_frame P w s VX_PAGE_SIZE size
    simp only [step, valloc]
    rw [hf.1, hf.2.2]
    exact ⟨h0, h1⟩

/-- Over any sequence of entry-point calls from process start, the heap is
created at most once. -/
theorem heap_created_at_most_once {W : Type} (P : Platform W) (w : Nat) (world : W)
    (calls : List Call) :
    (create_calls (run P w (sysheap_start world) calls).trace).length ≤ 1 := by
  have key : ∀ (cs : List Call) (s : sysheap_t W),
      (s.initialised = false → create_calls s.trace = []) →
      (create_calls s.trace).length ≤ 1 →
      (create_calls (run P w s cs).trace).length ≤ 1 := by
    intro cs
    induction cs with
    | nil => intro s _ h1; exact h1
    | cons c rest ih =>
      intro s h0 h1
      have hs := step_created_once P w s c h0 h1
      exact ih (step P w s c) hs.1 hs.2
  exact key calls (sysheap_start world) (fun _ => rfl) (by simp [sysheap_start, create_calls])

/-- The history after the lazy initialisation at process start: the segment
request and the creation of the heap over that segment; the heap pointer is the
heap created. -/
theorem init_memory_at_start {W : Type} (P : Platform W) (w : Nat) (world : W)
    (required : Nat) :
    (sysheap_init_memory P w (sysheap_start world) required).trace =
      [Event.sbrk (segment_length w required)
         (P.sbrk world (segment_length w required)).1,
       Event.lub_heap_create (P.sbrk world (segment_length w required)).1
         (segment_length w required)
         (sysheap_init_memory P w (sysheap_start world) required).heap] := by
  simp [sysheap_init_memory, sysheap_segment_alloc, sysheap_start]

/-- The sibling paths of `memalign`: when `malloc`, `calloc`, `realloc`, `free`
or `cfree` is the first entry point called, the history starts with the segment
request and the creation of the heap, and the heap call that follows is made on
the heap just created. -/
theorem first_call_creates_heap {W : Type} (P : Platform W) (w : Nat) (world : W)
    (c : Call) (hm : ∀ a n, c ≠ Call.memalign a n) (hv : ∀ n, c ≠ Call.valloc n) :
    ∃ length segment heap ptr size align status ptr_out rest,
      (step P w (sysheap_start world) c).trace =
        Event.sbrk length segment :: Event.lub_heap_create segment length heap ::
          Event.lub_heap_realloc heap ptr size align status ptr_out :: rest := by
  have via_block : ∀ (n p b : Nat) (place : String),
      ∃ length segment heap ptr size align status ptr_out rest,
      (sysheap_check_status
        (retry_block P w (sysheap_init_memory P w (sysheap_start world) n) p n
          lub_heap_align_t.LUB_HEAP_ALIGN_NATIVE).2.2
        (retry_block P w (sysheap_init_memory P w (sysheap_start world) n) p n
          lub_heap_align_t.LUB_HEAP_ALIGN_NATIVE).1 place b n).trace =
        Event.sbrk length segment :: Event.lub_heap_create segment length heap ::
          Event.lub_heap_realloc heap ptr size align status ptr_out :: rest := by
    intro n p b place
    obtain ⟨rest, hr⟩ := retry_block_first_event P w
      (sysheap_init_memory P w (sysheap_start world) n) p n
      lub_heap_align_t.LUB_HEAP_ALIGN_NATIVE
    rw [check_status_eq]
    simp only [hr, init_memory_at_start, List.cons_append, List.nil_append,
      List.append_assoc]
    exact ⟨_, _, _, _, _, _, _, _, _, rfl⟩
  have via_free : ∀ ptr : Nat,
      ∃ length segment heap p size align status ptr_out rest,
      (free P w (sysheap_start world) ptr).trace =
        Event.sbrk length segment :: Event.lub_heap_create segment length heap ::
          Event.lub_heap_realloc heap p size align status ptr_out :: rest := by
    intro ptr
    unfold free
    simp only []
    rw [check_status_eq]
    simp only [call_lub_heap_realloc, init_memory_at_start, List.cons_append,
      List.nil_append, List.append_assoc]
    exact ⟨_, _, _, _, _, _, _, _, _, rfl⟩
  cases c with
  | malloc nBytes =>
    simp only [step, malloc_eq]
    exact via_block nBytes 0 0 "malloc"
  | calloc nmemb size =>
    obtain ⟨l, sg, h, p, n, a, st, po, rest, hr⟩ :=
      via_block ((nmemb * size) % 2 ^ w) 0 0 "malloc"
    have hmal : (malloc P w (sysheap_start world) ((nmemb * size) % 2 ^ w)).2.trace =
        Event.sbrk l sg :: Event.lub_heap_create sg l h ::
          Event.lub_heap_realloc h p n a st po :: rest := by
      rw [malloc_eq]; exact hr
    simp only [step, calloc]
    by_cases hz : (malloc P w (sysheap_start world) ((nmemb * size) % 2 ^ w)).1 = 0
    · simp only [hz, ne_eq, not_true_eq_false, if_false]
      exact ⟨l, sg, h, p, n, a, st, po, rest, hmal⟩
    · simp only [hz, ne_eq, not_false_eq_true, if_true, hmal, List.cons_append]
      exact ⟨l, sg, h, p, n, a, st, po, _, rfl⟩
  | realloc old_ptr nBytes =>
    simp only [step, realloc_state_eq]
    exact via_block nBytes old_ptr _ "realloc"
  | free ptr => exact via_free ptr
  | cfree ptr => exact via_free ptr
  | memalign alignment nBytes => exact absurd rfl (hm alignment nBytes)
  | valloc size => exact absurd rfl (hv size)

/-- C10 at the failing input: when `memalign` (here with alignment 8) or
`valloc` is the first entry point called, its first event is the heap call,
made on the null heap pointer; no heap has been created, and the
initialisation flag is still clear afterwards. -/
theorem memalign_first_call_no_heap {W : Type} (P : Platform W) (w : Nat) (world : W)
    (nBytes : Nat) :
    (∃ rest, (memalign P w (sysheap_start world) 8 nBytes).2.trace =
      Event.lub_heap_realloc 0 0 nBytes lub_heap_align_t.LUB_HEAP_ALIGN_2_POWER_3
        (P.lub_heap_realloc world 0 0 nBytes
          lub_heap_align_t.LUB_HEAP_ALIGN_2_POWER_3).1
        (P.lub_heap_realloc world 0 0 nBytes
          lub_heap_align_t.LUB_HEAP_ALIGN_2_POWER_3).2.1 :: rest) ∧
    create_calls (memalign P w (sysheap_start world) 8 nBytes).2.trace = [] ∧
    (memalign P w (sysheap_start world) 8 nBytes).2.initialised = false ∧
    (∃ rest, (valloc P w (sysheap_start world) nBytes).2.trace =
      Event.lub_heap_realloc 0 0 nBytes lub_heap_align_t.LUB_HEAP_ALIGN_2_POWER_12
        (P.lub_heap_realloc world 0 0 nBytes
          lub_heap_align_t.LUB_HEAP_ALIGN_2_POWER_12).1
        (P.lub_heap_realloc world 0 0 nBytes
          lub_heap_align_t.LUB_HEAP_ALIGN_2_POWER_12).2.1 :: rest) ∧
    create_calls (valloc P w (sysheap_start world) nBytes).2.trace = [] ∧
    (valloc P w (sysheap_start world) nBytes).2.initialised = false := by
  have h8 := memalign_frame P w (sysheap_start world) 8 nBytes
  have hv := memalign_frame P w (sysheap_start world) VX_PAGE_SIZE nBytes
  have first : ∀ (alignment : Nat) (align : lub_heap_align_t),
      memalign_align alignment = some align →
      ∃ rest, (memalign P w (sysheap_start world) alignment nBytes).2.trace =
        Event.lub_heap_realloc 0 0 nBytes align
          (P.lub_heap_realloc world 0 0 nBytes align).1
          (P.lub_heap_realloc world 0 0 nBytes align).2.1 :: rest := by
    intro alignment align ha
    obtain ⟨rest, hr⟩ := retry_block_first_event P w (sysheap_start world) 0 nBytes align
    rw [memalign_state_eq P w _ alignment nBytes align ha, check_status_eq]
    rw [hr]
    simp only [sysheap_start, List.cons_append, List.nil_append]
    exact ⟨_, rfl⟩
  refine ⟨first 8 _ rfl, ?_, ?_, first VX_PAGE_SIZE _ rfl, ?_, ?_⟩
  · rw [h8.2.2]; rfl
  · rw [h8.1]; rfl
  · simp only [valloc]; rw [hv.2.2]; rfl
  · simp only [valloc]; rw [hv.1]; rfl

/-- For a request below half the range of `size_t` the segment length is at
least the request and at least `DEFAULT_CHUNK_SIZE`. -/
theorem segment_length_covers (w required : Nat) (hw : 17 < w)
    (hr : required < 2 ^ (w - 1)) :
    required ≤ segment_length w required ∧
    DEFAULT_CHUNK_SIZE ≤ segment_length w required := by
  have hpow : 2 ^ w = 2 * 2 ^ (w - 1) := by
    rw [← pow_succ']
    congr 1
    omega
  have h17 : 2 ^ 17 ≤ 2 ^ (w - 1) := Nat.pow_le_pow_right (by norm_num) (by omega)
  have hc : DEFAULT_CHUNK_SIZE / 2 = 65536 := by decide
  have hd : DEFAULT_CHUNK_SIZE = 131072 := by decide
  have hlt : 2 * max required (DEFAULT_CHUNK_SIZE / 2) < 2 ^ w := by
    rw [hc, hpow]
    have : max required 65536 < 2 ^ (w - 1) := max_lt hr (by omega)
    omega
  rw [segment_length_exact w required hlt, hc, hd]
  have h1 : required ≤ max required 65536 := le_max_left _ _
  have h2 : 65536 ≤ max required 65536 := le_max_right _ _
  omega

/-- C17 at the failing inputs: for every request in the upper half of the
range of `size_t` (`2 ^ (w - 1) ≤ required < 2 ^ w`, with `w > 17`) the doubling
wraps, the segment length is `2 * required - 2 ^ w`, and that is less than the
request; for the request `2 ^ (w - 1)` it is 0, less than
`DEFAULT_CHUNK_SIZE`. -/
theorem segment_length_short (w required : Nat) (hw : 17 < w)
    (hlo : 2 ^ (w - 1) ≤ required) (hhi : required < 2 ^ w) :
    segment_length w required = 2 * required - 2 ^ w ∧
    segment_length w required < required ∧
    segment_length w (2 ^ (w - 1)) = 0 ∧
    segment_length w (2 ^ (w - 1)) < DEFAULT_CHUNK_SIZE := by
  have hpow : 2 ^ w = 2 * 2 ^ (w - 1) := by
    rw [← pow_succ']
    congr 1
    omega
  have h17 : 2 ^ 17 ≤ 2 ^ (w - 1) := Nat.pow_le_pow_right (by norm_num) (by omega)
  have hs : DEFAULT_CHUNK_SIZE >>> 1 = 65536 := by decide
  have key : ∀ n, 2 ^ (w - 1) ≤ n → n < 2 ^ w →
      segment_length w n = 2 * n - 2 ^ w := by
    intro n h1 h2
    unfold segment_length size_shl1
    rw [hs]
    have hn : ¬ n < 65536 := by omega
    simp only [hn, if_false, Nat.shiftLeft_eq, pow_one]
    have h3 : n * 2 = (2 * n - 2 ^ w) + 2 ^ w := by omega
    rw [h3, Nat.add_mod_right, Nat.mod_eq_of_lt (by omega)]
  have hhalf := key (2 ^ (w - 1)) (le_refl _) (by omega)
  refine ⟨key required hlo hhi, ?_, ?_, ?_⟩
  · rw [key required hlo hhi]; omega
  · rw [hhalf]; omega
  · rw [hhalf]
    have : DEFAULT_CHUNK_SIZE = 131072 := by decide
    omega

/-- Witness for C17: a 64-bit `size_t` and the request `2 ^ 64 - 1`. -/
theorem segment_length_short_witness :
    (17 < 64 ∧ 2 ^ (64 - 1) ≤ 2 ^ 64 - 1 ∧ 2 ^ 64 - 1 < 2 ^ 64) ∧
    (segment_length 64 (2 ^ 64 - 1) = 2 * (2 ^ 64 - 1) - 2 ^ 64 ∧
    segment_length 64 (2 ^ 64 - 1) < 2 ^ 64 - 1 ∧
    segment_length 64 (2 ^ (64 - 1)) = 0 ∧
    segment_length 64 (2 ^ (64 - 1)) < DEFAULT_CHUNK_SIZE) :=
  ⟨⟨by decide, by decide, by decide⟩,
   segment_length_short 64 (2 ^ 64 - 1) (by decide) (by decide) (by decide)⟩

/-- The one `memset` call of `calloc`, made when `malloc` returned a block,
covers `size` bytes from the start of the block. -/
theorem calloc_memset_calls {W : Type} (P : Platform W) (w : Nat) (s : sysheap_t W)
    (nmemb size : Nat) :
    (calloc P w s nmemb size).1 = (malloc P w s ((nmemb * size) % 2 ^ w)).1 ∧
    (calloc P w s nmemb size).2.trace =
      (malloc P w s ((nmemb * size) % 2 ^ w)).2.trace ++
        (if (malloc P w s ((nmemb * size) % 2 ^ w)).1 ≠ 0 then
          [Event.memset (malloc P w s ((nmemb * size) % 2 ^ w)).1 0 size] else []) ∧
    ((calloc P w s nmemb size).1 = 0 →
      (calloc P w s nmemb size).2 = (malloc P w s ((nmemb * size) % 2 ^ w)).2) := by
  unfold calloc
  by_cases h : (malloc P w s ((nmemb * size) % 2 ^ w)).1 = 0 <;> simp [h]

/-- C14 at a failing input: `calloc(2, 8)` as first call, on memory whose
bytes all hold 255.  The block of 16 bytes is at address 20000; the one
`memset` covers 8 bytes, so the bytes 20000 to 20007 are zero and the bytes
20008 to 20015 still hold 255. -/
theorem calloc_zeroes_size_bytes_only :
    (calloc bytePlatform 64 (sysheap_start dirtyMemory) 2 8).1 = 20000 ∧
    realloc_calls (calloc bytePlatform 64 (sysheap_start dirtyMemory) 2 8).2.trace =
      [(16, lub_heap_align_t.LUB_HEAP_ALIGN_NATIVE, lub_heap_status_t.LUB_HEAP_OK)] ∧
    memset_calls (calloc bytePlatform 64 (sysheap_start dirtyMemory) 2 8).2.trace =
      [(20000, 0, 8)] ∧
    (calloc bytePlatform 64 (sysheap_start dirtyMemory) 2 8).2.world 20000 = 0 ∧
    (calloc bytePlatform 64 (sysheap_start dirtyMemory) 2 8).2.world 20007 = 0 ∧
    (calloc bytePlatform 64 (sysheap_start dirtyMemory) 2 8).2.world 20008 = 255 ∧
    (calloc bytePlatform 64 (sysheap_start dirtyMemory) 2 8).2.world 20015 = 255 := by
  decide

/-- The history after the lazy initialisation extends the history before it
by events that are neither heap calls nor lines on `stderr`. -/
theorem init_memory_extends {W : Type} (P : Platform W) (w : Nat) (s : sysheap_t W)
    (required : Nat) :
    ∃ added, (sysheap_init_memory P w s required).trace = s.trace ++ added ∧
      reported added = [] ∧ heap_results added = [] := by
  by_cases h : s.initialised = false
  · exact ⟨_, by simp [sysheap_init_memory, sysheap_segment_alloc, h]; rfl,
      by simp [reported], by simp [heap_results]⟩
  · exact ⟨[], by simp [sysheap_init_memory, h], rfl, rfl⟩

/-- The history after the shared block and `sysheap_check_status` extends the
history the block started from. -/
theorem retry_block_extends {W : Type} (P : Platform W) (w : Nat) (s1 : sysheap_t W)
    (pBlock nBytes : Nat) (align : lub_heap_align_t) (place : String)
    (block size : Nat) :
    ∃ added,
      (sysheap_check_status (retry_block P w s1 pBlock nBytes align).2.2
        (retry_block P w s1 pBlock nBytes align).1 place block size).trace =
      s1.trace ++ added := by
  obtain ⟨rest, hr⟩ := retry_block_first_event P w s1 pBlock nBytes align
  rw [check_status_eq]
  simp only [hr, List.append_assoc]
  exact ⟨_, rfl⟩

/-- The shared block followed by `sysheap_check_status`: the status reported is
the final status, if it is not `LUB_HEAP_OK`, and the final status and pointer
are the result of the last heap call. -/
theorem retry_block_status {W : Type} (P : Platform W) (w : Nat) (s1 : sysheap_t W)
    (pBlock nBytes : Nat) (align : lub_heap_align_t) (place : String)
    (block size : Nat) :
    reported (events_since s1
        (sysheap_check_status (retry_block P w s1 pBlock nBytes align).2.2
          (retry_block P w s1 pBlock nBytes align).1 place block size)) =
      report_of (retry_block P w s1 pBlock nBytes align).1 ∧
    last_heap_result (events_since s1
        (sysheap_check_status (retry_block P w s1 pBlock nBytes align).2.2
          (retry_block P w s1 pBlock nBytes align).1 place block size)) =
      some ((retry_block P w s1 pBlock nBytes align).1,
        (retry_block P w s1 pBlock nBytes align).2.1) := by
  by_cases h1 : (P.lub_heap_realloc s1.world s1.heap pBlock nBytes align).1 =
      lub_heap_status_t.LUB_HEAP_FAILED
  · by_cases h2 : (P.sbrk (P.lub_heap_realloc s1.world s1.heap pBlock nBytes align).2.2
        (segment_length w nBytes)).1 = 0
    · simp [retry_block, call_lub_heap_realloc, sysheap_extend_memory,
        sysheap_segment_alloc, check_status_eq, events_since, reported, report_of,
        last_heap_result, heap_results, h1, h2]
    · simp [retry_block, call_lub_heap_realloc, sysheap_extend_memory,
        sysheap_segment_alloc, check_status_eq, events_since, reported, report_of,
        last_heap_result, heap_results, h1, h2]
      split <;> simp
  · simp [retry_block, call_lub_heap_realloc, check_status_eq, events_since, reported,
      report_of, last_heap_result, heap_results, h1]
    split <;> simp

/-- When the heap writes the pointer only with `LUB_HEAP_OK`, a final status
other than `LUB_HEAP_OK` leaves the pointer of the shared block as it was. -/
theorem retry_block_keeps_pointer {W : Type} (P : Platform W) (w : Nat)
    (s1 : sysheap_t W) (pBlock nBytes : Nat) (align : lub_heap_align_t)
    (hP : heap_writes_on_ok P)
    (hs : (retry_block P w s1 pBlock nBytes align).1 ≠ lub_heap_status_t.LUB_HEAP_OK) :
    (retry_block P w s1 pBlock nBytes align).2.1 = pBlock := by
  have hfirst := hP s1.world s1.heap pBlock nBytes align
  by_cases h1 : (P.lub_heap_realloc s1.world s1.heap pBlock nBytes align).1 =
      lub_heap_status_t.LUB_HEAP_FAILED
  · have hp1 := hfirst (by rw [h1]; decide)
    by_cases h2 : (P.sbrk (P.lub_heap_realloc s1.world s1.heap pBlock nBytes align).2.2
        (segment_length w nBytes)).1 = 0
    · simp [retry_block, call_lub_heap_realloc, sysheap_extend_memory,
        sysheap_segment_alloc, h1, h2, hp1]
    · simp only [retry_block, call_lub_heap_realloc, sysheap_extend_memory,
        sysheap_segment_alloc, h1, h2, hp1, ne_eq, not_false_eq_true, if_true] at hs ⊢
      rw [hP _ _ _ _ _ hs]
  · simp only [retry_block, call_lub_heap_realloc, h1, if_false] at hs ⊢
    exact hfirst hs

/-- The events of a call that first initialises and then runs on: those of the
initialisation followed by those of the rest. -/
theorem events_since_append {W : Type} (s s1 t : sysheap_t W) (added rest : List Event)
    (h1 : s1.trace = s.trace ++ added) (h2 : t.trace = s1.trace ++ rest) :
    events_since s t = added ++ events_since s1 t := by
  simp [events_since, h1, h2]

/-- Events that are neither heap calls nor lines on `stderr` change neither
what is reported nor the last heap result. -/
theorem silent_events (added ev : List Event) (hr : reported added = [])
    (hh : heap_results added = []) :
    reported (added ++ ev) = reported ev ∧
    last_heap_result (added ++ ev) = last_heap_result ev := by
  unfold reported at hr
  unfold heap_results at hh
  simp [reported, last_heap_result, heap_results, List.filterMap_append, hr, hh]

/-- The toy platform writes the pointer only with `LUB_HEAP_OK`. -/
theorem toyPlatform_writes_on_ok : heap_writes_on_ok toyPlatform := by
  intro world heap ptr size align h
  simp only [toyPlatform] at h ⊢
  by_cases h0 : size = 0
  · simp [h0] at h
  · by_cases h1 : size ≤ world.2
    · simp [h0, h1] at h
    · simp [h0, h1]

/-- What holds of the reporting and the returned pointer for every platform:
`malloc`, `realloc` and `memalign` report the final heap status on `stderr`
exactly when it is not `LUB_HEAP_OK`, and with `LUB_HEAP_OK` return the pointer
written by the heap.  With any other final status `realloc` and `memalign`
return the null pointer by their own test; `malloc` does so only when the heap
left its pointer null (`heap_writes_on_ok`).  For an alignment without a class
`memalign` reports `LUB_HEAP_FAILED` and returns null. -/
theorem status_reported {W : Type} (P : Platform W) (w : Nat) (s : sysheap_t W)
    (old_ptr nBytes alignment : Nat) :
    status_contract (events_since s (malloc P w s nBytes).2) (malloc P w s nBytes).1
      (heap_writes_on_ok P) ∧
    status_contract (events_since s (realloc P w s old_ptr nBytes).2)
      (realloc P w s old_ptr nBytes).1 True ∧
    (∀ align, memalign_align alignment = some align →
      status_contract (events_since s (memalign P w s alignment nBytes).2)
        (memalign P w s alignment nBytes).1 True) ∧
    (memalign_align alignment = none →
      reported (events_since s (memalign P w s alignment nBytes).2) =
        [lub_heap_status_t.LUB_HEAP_FAILED] ∧
      (memalign P w s alignment nBytes).1 = 0) := by
  refine ⟨?_, ?_, ?_, ?_⟩
  · obtain ⟨added, ha, hr, hh⟩ := init_memory_extends P w s nBytes
    obtain ⟨rest, hrest⟩ := retry_block_extends P w (sysheap_init_memory P w s nBytes)
      0 nBytes lub_heap_align_t.LUB_HEAP_ALIGN_NATIVE "malloc" 0 nBytes
    have hst := retry_block_status P w (sysheap_init_memory P w s nBytes) 0 nBytes
      lub_heap_align_t.LUB_HEAP_ALIGN_NATIVE "malloc" 0 nBytes
    refine ⟨(retry_block P w (sysheap_init_memory P w s nBytes) 0 nBytes
        lub_heap_align_t.LUB_HEAP_ALIGN_NATIVE).1,
      (retry_block P w (sysheap_init_memory P w s nBytes) 0 nBytes
        lub_heap_align_t.LUB_HEAP_ALIGN_NATIVE).2.1, ?_, ?_, fun _ => ?_, fun hP hne => ?_⟩
    · rw [malloc_eq, events_since_append s _ _ added rest ha hrest,
        (silent_events added _ hr hh).2]
      exact hst.2
    · rw [malloc_eq, events_since_append s _ _ added rest ha hrest,
        (silent_events added _ hr hh).1]
      exact hst.1
    · rw [malloc_eq]
    · rw [malloc_eq]
      exact retry_block_keeps_pointer P w _ 0 nBytes _ hP hne
  · obtain ⟨added, ha, hr, hh⟩ := init_memory_extends P w s nBytes
    obtain ⟨rest, hrest⟩ := retry_block_extends P w (sysheap_init_memory P w s nBytes)
      old_ptr nBytes lub_heap_align_t.LUB_HEAP_ALIGN_NATIVE "realloc"
      (retry_block P w (sysheap_init_memory P w s nBytes) old_ptr nBytes
        lub_heap_align_t.LUB_HEAP_ALIGN_NATIVE).2.1 nBytes
    have hst := retry_block_status P w (sysheap_init_memory P w s nBytes) old_ptr nBytes
      lub_heap_align_t.LUB_HEAP_ALIGN_NATIVE "realloc"
      (retry_block P w (sysheap_init_memory P w s nBytes) old_ptr nBytes
        lub_heap_align_t.LUB_HEAP_ALIGN_NATIVE).2.1 nBytes
    refine ⟨(retry_block P w (sysheap_init_memory P w s nBytes) old_ptr nBytes
        lub_heap_align_t.LUB_HEAP_ALIGN_NATIVE).1,
      (retry_block P w (sysheap_init_memory P w s nBytes) old_ptr nBytes
        lub_heap_align_t.LUB_HEAP_ALIGN_NATIVE).2.1, ?_, ?_, fun hok => ?_,
      fun _ hne => ?_⟩
    · rw [realloc_state_eq, events_since_append s _ _ added rest ha hrest,
        (silent_events added _ hr hh).2]
      exact hst.2
    · rw [realloc_state_eq, events_since_append s _ _ added rest ha hrest,
        (silent_events added _ hr hh).1]
      exact hst.1
    · have : (realloc P w s old_ptr nBytes).1 =
          if (retry_block P w (sysheap_init_memory P w s nBytes) old_ptr nBytes
            lub_heap_align_t.LUB_HEAP_ALIGN_NATIVE).1 = lub_heap_status_t.LUB_HEAP_OK
          then (retry_block P w (sysheap_init_memory P w s nBytes) old_ptr nBytes
            lub_heap_align_t.LUB_HEAP_ALIGN_NATIVE).2.1 else 0 := rfl
      rw [this, if_pos hok]
    · have : (realloc P w s old_ptr nBytes).1 =
          if (retry_block P w (sysheap_init_memory P w s nBytes) old_ptr nBytes
            lub_heap_align_t.LUB_HEAP_ALIGN_NATIVE).1 = lub_heap_status_t.LUB_HEAP_OK
          then (retry_block P w (sysheap_init_memory P w s nBytes) old_ptr nBytes
            lub_heap_align_t.LUB_HEAP_ALIGN_NATIVE).2.1 else 0 := rfl
      rw [this, if_neg hne]
  · intro align ha
    have hst := retry_block_status P w s 0 nBytes align "memalign"
      (retry_block P w s 0 nBytes align).2.1 nBytes
    have hres : (memalign P w s alignment nBytes).1 =
        if (retry_block P w s 0 nBytes align).1 = lub_heap_status_t.LUB_HEAP_OK
        then (retry_block P w s 0 nBytes align).2.1 else 0 := by
      simp only [memalign, ha]
      rfl
    refine ⟨(retry_block P w s 0 nBytes align).1, (retry_block P w s 0 nBytes align).2.1,
      ?_, ?_, fun hok => ?_, fun _ hne => ?_⟩
    · rw [memalign_state_eq P w s alignment nBytes align ha]
      exact hst.2
    · rw [memalign_state_eq P w s alignment nBytes align ha]
      exact hst.1
    · rw [hres, if_pos hok]
    · rw [hres, if_neg hne]
  · intro hn
    simp [memalign, hn, check_status_eq, events_since, reported]



/-! ## Theorems: ordered index -/

/-- The zig-zig step to the left keeps the owners in order. -/
theorem inorder_splay_left_left {α : Type} (s ll : bintree α) (y : α) (lr : bintree α)
    (x : α) (r : bintree α) (h : s.inorder = ll.inorder) :
    (splay_left_left s ll y lr x r).inorder =
      ll.inorder ++ y :: (lr.inorder ++ x :: r.inorder) := by
  cases s with
  | leaf => simp [splay_left_left, bintree.inorder]
  | node a z b =>
    simp only [bintree.inorder] at h
    simp [splay_left_left, bintree.inorder, ← h]

/-- The zig-zag step to the left keeps the owners in order. -/
theorem inorder_splay_left_right {α : Type} (s ll : bintree α) (y : α) (lr : bintree α)
    (x : α) (r : bintree α) (h : s.inorder = lr.inorder) :
    (splay_left_right s ll y lr x r).inorder =
      ll.inorder ++ y :: (lr.inorder ++ x :: r.inorder) := by
  cases s with
  | leaf => simp [splay_left_right, bintree.inorder]
  | node a z b =>
    simp only [bintree.inorder] at h
    simp [splay_left_right, bintree.inorder, ← h]

/-- The zig-zig step to the right keeps the owners in order. -/
theorem inorder_splay_right_right {α : Type} (s l : bintree α) (x : α) (rl : bintree α)
    (y : α) (rr : bintree α) (h : s.inorder = rr.inorder) :
    (splay_right_right s l x rl y rr).inorder =
      l.inorder ++ x :: (rl.inorder ++ y :: rr.inorder) := by
  cases s with
  | leaf => simp [splay_right_right, bintree.inorder]
  | node a z b =>
    simp only [bintree.inorder] at h
    simp [splay_right_right, bintree.inorder, ← h]

/-- The zig-zag step to the right keeps the owners in order. -/
theorem inorder_splay_right_left {α : Type} (s l : bintree α) (x : α) (rl : bintree α)
    (y : α) (rr : bintree α) (h : s.inorder = rl.inorder) :
    (splay_right_left s l x rl y rr).inorder =
      l.inorder ++ x :: (rl.inorder ++ y :: rr.inorder) := by
  cases s with
  | leaf => simp [splay_right_left, bintree.inorder]
  | node a z b =>
    simp only [bintree.inorder] at h
    simp [splay_right_left, bintree.inorder, ← h]

/-- A splay step at a left child keeps the owners in order. -/
theorem inorder_splay_left {α κ : Type} (this : lub_bintree_t α κ) (key : Option κ)
    (sll slr ll : bintree α) (y : α) (lr : bintree α) (x : α) (r : bintree α)
    (h1 : sll.inorder = ll.inorder) (h2 : slr.inorder = lr.inorder) :
    (splay_left this key sll slr ll y lr x r).inorder =
      ll.inorder ++ y :: (lr.inorder ++ x :: r.inorder) := by
  unfold splay_left
  split
  · exact inorder_splay_left_left sll ll y lr x r h1
  · split
    · exact inorder_splay_left_right slr ll y lr x r h2
    · simp [bintree.inorder]

/-- A splay step at a right child keeps the owners in order. -/
theorem inorder_splay_right {α κ : Type} (this : lub_bintree_t α κ) (key : Option κ)
    (srl srr l : bintree α) (x : α) (rl : bintree α) (y : α) (rr : bintree α)
    (h1 : srl.inorder = rl.inorder) (h2 : srr.inorder = rr.inorder) :
    (splay_right this key srl srr l x rl y rr).inorder =
      l.inorder ++ x :: (rl.inorder ++ y :: rr.inorder) := by
  unfold splay_right
  split
  · exact inorder_splay_right_right srr l x rl y rr h2
  · split
    · exact inorder_splay_right_left srl l x rl y rr h1
    · simp [bintree.inorder]

/-- A splay keeps the owners of the tree, in order, whatever the compare
function and the key. -/
theorem inorder_splay {α κ : Type} (this : lub_bintree_t α κ) (t : bintree α)
    (key : Option κ) : (lub_bintree_splay this t key).inorder = t.inorder := by
  induction t, key using lub_bintree_splay.induct this with
  | case1 => simp [lub_bintree_splay]
  | case2 => simp [lub_bintree_splay]
  | case3 x rl y rr key h ih1 ih2 =>
    rw [lub_bintree_splay, if_pos h, inorder_splay_right this key _ _ _ x rl y rr ih1 ih2]
    simp [bintree.inorder]
  | case4 x rl y rr key h => rw [lub_bintree_splay, if_neg h]
  | case5 ll y lr x key h ih1 ih2 =>
    rw [lub_bintree_splay, if_pos h, inorder_splay_left this key _ _ ll y lr x _ ih1 ih2]
    simp [bintree.inorder]
  | case6 ll y lr x key h => rw [lub_bintree_splay, if_neg h]
  | case7 ll y lr x rl z rr key h ih1 ih2 =>
    rw [lub_bintree_splay, if_pos h, inorder_splay_left this key _ _ ll y lr x _ ih1 ih2]
    simp [bintree.inorder]
  | case8 ll y lr x rl z rr key h h' ih1 ih2 =>
    rw [lub_bintree_splay, if_neg h, if_pos h',
      inorder_splay_right this key _ _ _ x rl z rr ih1 ih2]
    simp [bintree.inorder]
  | case9 ll y lr x rl z rr key h h' => rw [lub_bintree_splay, if_neg h, if_neg h']

/-- A splay of an empty tree is empty, and only that. -/
theorem splay_eq_leaf_iff {α κ : Type} (this : lub_bintree_t α κ) (t : bintree α)
    (key : Option κ) : lub_bintree_splay this t key = .leaf ↔ t = .leaf := by
  constructor
  · intro h
    have hi := inorder_splay this t key
    rw [h] at hi
    cases t with
    | leaf => rfl
    | node l x r => simp [bintree.inorder] at hi
  · intro h
    subst h
    simp [lub_bintree_splay]

/-- With a compare function that always answers "left", a splay step at a left
child puts the leftmost owner at the root, with nothing to its left. -/
theorem splay_left_leftmost {α κ : Type} (this : lub_bintree_t α κ)
    (hc : this.compareFn = compareleft) (key : Option κ) (ll : bintree α) (y : α)
    (lr : bintree α) (x : α) (r : bintree α)
    (ih : ll ≠ .leaf → ∃ m rest, lub_bintree_splay this ll key = .node .leaf m rest ∧
      ll.inorder.head? = some m) :
    ∃ m rest,
      splay_left this key (lub_bintree_splay this ll key) (lub_bintree_splay this lr key)
        ll y lr x r = .node .leaf m rest ∧
      (ll.inorder ++ y :: (lr.inorder ++ x :: r.inorder)).head? = some m := by
  have hy : this.compareFn y key > 0 := by rw [hc]; simp [compareleft]
  unfold splay_left
  rw [if_pos hy]
  cases ll with
  | leaf =>
    refine ⟨y, .node lr x r, ?_, ?_⟩
    · simp [lub_bintree_splay, splay_left_left]
    · simp [bintree.inorder]
  | node a z b =>
    obtain ⟨m, rest, hs, hm⟩ := ih (by simp)
    refine ⟨m, .node rest y (.node lr x r), ?_, ?_⟩
    · rw [hs]; simp [splay_left_left]
    · cases hio : (bintree.node a z b).inorder with
      | nil => rw [hio] at hm; simp at hm
      | cons c cs => rw [hio] at hm; simpa using hm

/-- With a compare function that always answers "left", the splay of a tree
that is not empty has the leftmost owner at the root, with nothing to its
left. -/
theorem splay_leftmost {α κ : Type} (this : lub_bintree_t α κ)
    (hc : this.compareFn = compareleft) (t : bintree α) (key : Option κ) :
    t ≠ .leaf → ∃ m rest, lub_bintree_splay this t key = .node .leaf m rest ∧
      t.inorder.head? = some m := by
  have hpos : ∀ a, this.compareFn a key > 0 := by
    intro a; rw [hc]; simp [compareleft]
  have hneg : ∀ a, ¬ this.compareFn a key < 0 := by
    intro a; rw [hc]; simp [compareleft]
  induction t, key using lub_bintree_splay.induct this with
  | case1 => intro h; exact absurd rfl h
  | case2 x key =>
    intro _
    exact ⟨x, .leaf, by simp [lub_bintree_splay], by simp [bintree.inorder]⟩
  | case3 x rl y rr key h ih1 ih2 => exact absurd h (hneg x)
  | case4 x rl y rr key h =>
    intro _
    exact ⟨x, .node rl y rr, by rw [lub_bintree_splay, if_neg h],
      by simp [bintree.inorder]⟩
  | case5 ll y lr x key h ih1 ih2 =>
    intro _
    rw [lub_bintree_splay, if_pos h]
    simpa [bintree.inorder] using
      splay_left_leftmost this hc key ll y lr x .leaf (ih1 hpos hneg)
  | case6 ll y lr x key h => exact absurd (hpos x) h
  | case7 ll y lr x rl z rr key h ih1 ih2 =>
    intro _
    rw [lub_bintree_splay, if_pos h]
    simpa [bintree.inorder] using
      splay_left_leftmost this hc key ll y lr x (.node rl z rr) (ih1 hpos hneg)
  | case8 ll y lr x rl z rr key h h' ih1 ih2 => exact absurd (hpos x) h
  | case9 ll y lr x rl z rr key h h' => exact absurd (hpos x) h

/-- In a search tree under a lawful compare function the leftmost owner is
below the key of every other owner. -/
theorem leftmost_below_rest {α κ : Type} (this : lub_bintree_t α κ)
    (hl : lawful_compare this) (t : bintree α) :
    bst_ordered this t → ∀ m rest, t.inorder = m :: rest →
      ∀ x ∈ rest, this.compareFn m (some (this.getkeyFn x)) < 0 := by
  induction t with
  | leaf => intro _ m rest h; simp [bintree.inorder] at h
  | node l x r ihl _ =>
    intro hb m rest h y hy
    obtain ⟨hleft, hright, hbl, _⟩ := hb
    simp only [bintree.inorder] at h
    cases hlo : l.inorder with
    | nil =>
      rw [hlo] at h
      simp only [List.nil_append, List.cons.injEq] at h
      obtain ⟨hm, hrest⟩ := h
      subst hm
      rw [← hrest] at hy
      exact hl.antisymm x y (hright y hy)
    | cons c cs =>
      rw [hlo] at h
      simp only [List.cons_append, List.cons.injEq] at h
      obtain ⟨hm, hrest⟩ := h
      subst hm
      have hcx : this.compareFn c (some (this.getkeyFn x)) < 0 :=
        hleft c (by rw [hlo]; simp)
      rw [← hrest] at hy
      rcases List.mem_append.1 hy with hy1 | hy2
      · exact ihl hbl c cs hlo y hy1
      · rcases List.mem_cons.1 hy2 with hyx | hyr
        · rw [hyx]; exact hcx
        · exact hl.trans c x y hcx (hl.antisymm x y (hright y hyr))

/-- The tree that `lub_bintree_findfirst` leaves: the tree it was given with
the root splayed under `compareleft`. -/
theorem findfirst_tree {α κ : Type} (this : lub_bintree_t α κ) :
    (lub_bintree_findfirst this).2 =
      { this with
        root := lub_bintree_splay { this with compareFn := compareleft } this.root none } := by
  unfold lub_bintree_findfirst
  simp only []
  split <;> rfl

/-- The client node that `lub_bintree_findfirst` returns: the owner of the
root it leaves, or nothing without a root. -/
theorem findfirst_result {α κ : Type} (this : lub_bintree_t α κ) :
    (lub_bintree_findfirst this).1 =
      match (lub_bintree_findfirst this).2.root with
      | .leaf => none
      | .node _ owner _ => some owner := by
  rw [findfirst_tree]
  unfold lub_bintree_findfirst
  simp only []
  split <;> simp_all

/-- C12: for a valid binary search tree under the compare function of the
client, `lub_bintree_findfirst` returns no node when the tree is empty;
otherwise it returns the leftmost owner `m`, whose key is below (so less than
or equal to) the key of every other owner of the tree, and `m` is at the root
afterwards. -/
theorem findfirst_minimum {α κ : Type} (this : lub_bintree_t α κ)
    (hv : valid_bst this) :
    (this.root = .leaf → (lub_bintree_findfirst this).1 = none) ∧
    (this.root ≠ .leaf → ∃ m rest right,
      this.root.inorder = m :: rest ∧
      (lub_bintree_findfirst this).1 = some m ∧
      (∀ x ∈ rest, this.compareFn m (some (this.getkeyFn x)) ≤ 0) ∧
      (∀ x ∈ rest, this.compareFn m (some (this.getkeyFn x)) < 0) ∧
      (lub_bintree_findfirst this).2.root = .node .leaf m right) := by
  constructor
  · intro h
    rw [findfirst_result, findfirst_tree]
    simp [h, lub_bintree_splay]
  · intro h
    obtain ⟨m, right, hs, hm⟩ :=
      splay_leftmost { this with compareFn := compareleft } rfl this.root none h
    cases hio : this.root.inorder with
    | nil => rw [hio] at hm; simp at hm
    | cons c rest =>
      rw [hio] at hm
      simp only [List.head?_cons, Option.some.injEq] at hm
      subst hm
      have hlt := leftmost_below_rest this hv.1 this.root hv.2 c rest hio
      refine ⟨c, rest, right, rfl, ?_, fun x hx => le_of_lt (hlt x hx), hlt, ?_⟩
      · rw [findfirst_result, findfirst_tree]
        simp only [hs]
      · rw [findfirst_tree]
        exact hs

/-- The example tree is a valid binary search tree under `natCompare`. -/
theorem exampleTree_valid : valid_bst exampleTree := by
  refine ⟨⟨?_, ?_⟩, ?_⟩
  · intro a b h
    simp only [exampleTree, natCompare, id] at h ⊢
    omega
  · intro a b c h1 h2
    simp only [exampleTree, natCompare, id] at h1 h2 ⊢
    omega
  · simp [bst_ordered, exampleTree, bintree.inorder, natCompare]

/-- Witness for C12: the example tree of the numbers 1 to 5. -/
theorem findfirst_minimum_witness :
    valid_bst exampleTree ∧
    ((exampleTree.root = .leaf → (lub_bintree_findfirst exampleTree).1 = none) ∧
    (exampleTree.root ≠ .leaf → ∃ m rest right,
      exampleTree.root.inorder = m :: rest ∧
      (lub_bintree_findfirst exampleTree).1 = some m ∧
      (∀ x ∈ rest, exampleTree.compareFn m (some (exampleTree.getkeyFn x)) ≤ 0) ∧
      (∀ x ∈ rest, exampleTree.compareFn m (some (exampleTree.getkeyFn x)) < 0) ∧
      (lub_bintree_findfirst exampleTree).2.root = .node .leaf m right)) :=
  ⟨exampleTree_valid, findfirst_minimum exampleTree exampleTree_valid⟩

/-- The example tree under `lub_bintree_findfirst`: 1 is returned and is the
root afterwards, with the other owners in order to its right. -/
theorem findfirst_example :
    (lub_bintree_findfirst exampleTree).1 = some 1 ∧
    (lub_bintree_findfirst exampleTree).2.root =
      .node .leaf 1 (.node .leaf 2 (.node (.node .leaf 3 .leaf) 4 (.node .leaf 5 .leaf))) ∧
    (lub_bintree_findfirst exampleTree).2.root.inorder = [1, 2, 3, 4, 5] := by
  decide

/-- C16: after `lub_bintree_findfirst` the compare function of the tree is the
one of the client again, the node offset and the get-key function are those
given, and the owners held are the same, in the same order: only the shape of
the tree and its root may differ. -/
theorem findfirst_frame {α κ : Type} (this : lub_bintree_t α κ) :
    (lub_bintree_findfirst this).2.compareFn = this.compareFn ∧
    (lub_bintree_findfirst this).2.node_offset = this.node_offset ∧
    (lub_bintree_findfirst this).2.getkeyFn = this.getkeyFn ∧
    (lub_bintree_findfirst this).2.root.inorder = this.root.inorder ∧
    (∀ x, x ∈ (lub_bintree_findfirst this).2.root.inorder ↔ x ∈ this.root.inorder) := by
  rw [findfirst_tree]
  have h := inorder_splay { this with compareFn := compareleft } this.root none
  exact ⟨rfl, rfl, rfl, h, fun x => by rw [h]⟩

/-! ## Theorems: views -/

/-- A string compares equal to itself. -/
theorem strcmp_codes_self (l : List Nat) : strcmp_codes l l = 0 := by
  induction l with
  | nil => rfl
  | cons a as ih => simp [strcmp_codes, ih]

/-- The tree of the example views is keyed by name. -/
theorem emptyView_keyed : keyed_by_name emptyView.tree :=
  ⟨fun _ => rfl, fun _ => strcmp_codes_self _⟩

/-- The view with the command `show version`: the command is found under its
name and the word `show` alone names no command. -/
theorem showVersionView_commands :
    showVersionView.tree.root.inorder = [⟨"show version", some "Show the version"⟩] ∧
    (clish_view_find_command showVersionView "show version").1 =
      some ⟨"show version", some "Show the version"⟩ ∧
    (clish_view_find_command showVersionView "show").1 = none := by
  decide

/-- An insert whose key is already held by an owner of the tree gives the
duplicate indicator and the tree as it was. -/
theorem insert_duplicate {α κ : Type} (this : lub_bintree_t α κ) (clientnode : α)
    (h : ∃ owner ∈ this.root.inorder,
      this.compareFn owner (some (this.getkeyFn clientnode)) = 0) :
    lub_bintree_insert this clientnode = (-1, this) := by
  obtain ⟨owner, hmem, heq⟩ := h
  have hany : this.root.inorder.any
      (fun owner => this.compareFn owner (some (this.getkeyFn clientnode)) = 0) = true := by
    rw [List.any_eq_true]
    exact ⟨owner, hmem, by simpa using heq⟩
  unfold lub_bintree_insert
  simp only [hany, if_true]

/-- C13: for a view whose command tree is keyed by name and a name that a
command of the tree already holds, `clish_view_new_command` with that name and
a help text returns no command and leaves the command tree with the same
owners: the same node count and the same keys as before. -/
theorem new_command_duplicate (this : clish_view_t) (name help : String)
    (hk : keyed_by_name this.tree)
    (hdup : ∃ c ∈ this.tree.root.inorder, c.name = name) :
    (clish_view_new_command this name (some help)).1 = none ∧
    (clish_view_new_command this name (some help)).2.tree.root.inorder =
      this.tree.root.inorder ∧
    (clish_view_new_command this name (some help)).2.tree.root.inorder.length =
      this.tree.root.inorder.length ∧
    (clish_view_new_command this name (some help)).2.tree.root.inorder.map
        (clish_view_new_command this name (some help)).2.tree.getkeyFn =
      this.tree.root.inorder.map this.tree.getkeyFn := by
  have hins : lub_bintree_insert this.tree (clish_command_new name (some help)) =
      (-1, this.tree) := by
    apply insert_duplicate
    obtain ⟨c, hc, hn⟩ := hdup
    refine ⟨c, hc, ?_⟩
    rw [hk.1 (clish_command_new name (some help))]
    simp only [clish_command_new]
    rw [← hn]
    exact hk.2 c
  unfold clish_view_new_command
  simp [hins]

/-- Witness for C13: a second `show version` for the view that has one. -/
theorem new_command_duplicate_witness :
    (keyed_by_name showVersionView.tree ∧
      ∃ c ∈ showVersionView.tree.root.inorder, c.name = "show version") ∧
    ((clish_view_new_command showVersionView "show version" (some "again")).1 = none ∧
    (clish_view_new_command showVersionView "show version"
        (some "again")).2.tree.root.inorder =
      showVersionView.tree.root.inorder ∧
    (clish_view_new_command showVersionView "show version"
        (some "again")).2.tree.root.inorder.length =
      showVersionView.tree.root.inorder.length ∧
    (clish_view_new_command showVersionView "show version"
        (some "again")).2.tree.root.inorder.map
        (clish_view_new_command showVersionView "show version"
          (some "again")).2.tree.getkeyFn =
      showVersionView.tree.root.inorder.map showVersionView.tree.getkeyFn) :=
  have hk : keyed_by_name showVersionView.tree :=
    ⟨fun _ => rfl, fun _ => strcmp_codes_self _⟩
  have hdup : ∃ c ∈ showVersionView.tree.root.inorder, c.name = "show version" :=
    ⟨⟨"show version", some "Show the version"⟩, by decide, rfl⟩
  ⟨⟨hk, hdup⟩, new_command_duplicate showVersionView "show version" "again" hk hdup⟩

/-- A name that no command holds is inserted: the command is returned and is
the root of the tree afterwards. -/
theorem new_command_example :
    (clish_view_new_command showVersionView "show" (some "Show things")).1 =
      some ⟨"show", some "Show things"⟩ ∧
    (clish_view_new_command showVersionView "show"
        (some "Show things")).2.tree.root.inorder =
      [⟨"show", some "Show things"⟩, ⟨"show version", some "Show the version"⟩] := by
  decide

/-- When the first word of the line names no command, the result of
`clish_view_resolve_prefix` is no command, whatever the longer prefixes of the
line name. -/
theorem resolve_first_word_unknown (this : clish_view_t) (word : String)
    (rest : List String) (h : (clish_view_find_command this word).1 = none) :
    ( clish_view_resolve_prefix this (word :: rest)).1 = none := by
  unfold clish_view_resolve_prefix resolve_prefix_loop
  simp [h]

/-- C15 at a failing input: the view whose one command is `show version` and
the line `show version`.  The prefix of two words names the command, yet the
loop stops at the first word, which names none, and the result is no
command. -/
theorem resolve_misses_longest_match :
    (clish_view_find_command showVersionView ("show" ++ " " ++ "version")).1 =
      some ⟨"show version", some "Show the version"⟩ ∧
    (clish_view_find_command showVersionView "show").1 = none ∧
    ( clish_view_resolve_prefix showVersionView ["show", "version"]).1 = none := by
  decide

/-- The loop where every prefix names a command: with the commands `show` and
`show version`, the line `show version now` resolves to `show version`. -/
theorem resolve_example :
    ( clish_view_resolve_prefix
        (clish_view_new_command showVersionView "show" (some "Show things")).2
        ["show", "version", "now"]).1 =
      some ⟨"show version", some "Show the version"⟩ := by
  decide

/-! ## Theorems: the retry and the returned pointer, revisited -/

/-- The `sbrk` of `sbrkPlatform` never returns the null pointer. -/
theorem sbrkPlatform_never_null : sbrk_never_null sbrkPlatform := by
  intro world increment
  simp [sbrkPlatform]

/-- When `sbrk` never returns null, the branch for a null segment is never
taken, and the retry behaviour branch by branch is the one of the spec. -/
theorem retry_claim_of_contract {W : Type} (P : Platform W) (w : Nat) (s1 : sysheap_t W)
    (pBlock nBytes : Nat) (align : lub_heap_align_t) (ev : List Event)
    (hs : sbrk_never_null P) (hc : retry_contract P w s1 pBlock nBytes align ev) :
    retry_claim P w s1 pBlock nBytes align ev :=
  ⟨hc.1, fun hf => hc.2.2.1 hf (hs _ _), hc.2.2.2⟩

/-- C9: `malloc`, `realloc` and `memalign` (for an alignment that has a class)
keep `retry_claim` after the lazy initialisation, for every behaviour of the
heap, given that `sbrk` never returns the null pointer.  If the first heap call
returns `LUB_HEAP_FAILED`, exactly one segment is requested with `sbrk`, it is
added to the heap, and the heap call is repeated exactly once with the same
size and class, and the second status is final; if the first status is anything
else, no segment is requested and nothing is repeated.  One call makes at most
two heap calls and at most one `lub_heap_add_segment` call. -/
theorem retry_exactly_once {W : Type} (P : Platform W) (w : Nat) (s : sysheap_t W)
    (old_ptr nBytes alignment : Nat) (align : lub_heap_align_t)
    (hs : sbrk_never_null P) (h : memalign_align alignment = some align) :
    retry_claim P w (sysheap_init_memory P w s nBytes) 0 nBytes
      lub_heap_align_t.LUB_HEAP_ALIGN_NATIVE
      (events_since (sysheap_init_memory P w s nBytes) (malloc P w s nBytes).2) ∧
    retry_claim P w (sysheap_init_memory P w s nBytes) old_ptr nBytes
      lub_heap_align_t.LUB_HEAP_ALIGN_NATIVE
      (events_since (sysheap_init_memory P w s nBytes)
        (realloc P w s old_ptr nBytes).2) ∧
    retry_claim P w s 0 nBytes align
      (events_since s (memalign P w s alignment nBytes).2) := by
  refine ⟨?_, ?_, ?_⟩
  · rw [malloc_eq]
    exact retry_claim_of_contract P w _ 0 nBytes _ _ hs
      (retry_block_contract P w _ 0 nBytes _ "malloc" 0 nBytes)
  · rw [realloc_state_eq]
    exact retry_claim_of_contract P w _ old_ptr nBytes _ _ hs
      (retry_block_contract P w _ old_ptr nBytes _ "realloc" _ nBytes)
  · rw [memalign_state_eq P w s alignment nBytes align h]
    exact retry_claim_of_contract P w s 0 nBytes align _ hs
      (retry_block_contract P w s 0 nBytes align "memalign" _ nBytes)

/-- Witness for C9: requests of 200 bytes on `sbrkPlatform` with 100 free
bytes, so that the first heap call returns `LUB_HEAP_FAILED`; alignment 8. -/
theorem retry_exactly_once_witness :
    (sbrk_never_null sbrkPlatform ∧
      memalign_align 8 = some lub_heap_align_t.LUB_HEAP_ALIGN_2_POWER_3) ∧
    (retry_claim sbrkPlatform 64 (sysheap_init_memory sbrkPlatform 64 sbrkRunning 200) 0
      200 lub_heap_align_t.LUB_HEAP_ALIGN_NATIVE
      (events_since (sysheap_init_memory sbrkPlatform 64 sbrkRunning 200)
        (malloc sbrkPlatform 64 sbrkRunning 200).2) ∧
    retry_claim sbrkPlatform 64 (sysheap_init_memory sbrkPlatform 64 sbrkRunning 200)
      4100 200 lub_heap_align_t.LUB_HEAP_ALIGN_NATIVE
      (events_since (sysheap_init_memory sbrkPlatform 64 sbrkRunning 200)
        (realloc sbrkPlatform 64 sbrkRunning 4100 200).2) ∧
    retry_claim sbrkPlatform 64 sbrkRunning 0 200
      lub_heap_align_t.LUB_HEAP_ALIGN_2_POWER_3
      (events_since sbrkRunning (memalign sbrkPlatform 64 sbrkRunning 8 200).2)) :=
  ⟨⟨sbrkPlatform_never_null, rfl⟩,
   retry_exactly_once sbrkPlatform 64 sbrkRunning 4100 200 8
     lub_heap_align_t.LUB_HEAP_ALIGN_2_POWER_3 sbrkPlatform_never_null rfl⟩

/-- The three entry points on `sbrkPlatform` with 100 free bytes and a request
of 200: the first heap call fails, one segment of 131072 bytes is requested and
added, and the one repeated heap call, with the same size and class,
succeeds. -/
theorem retry_examples :
    (sbrkPlatform.lub_heap_realloc sbrkRunning.world 8192 0 200
      lub_heap_align_t.LUB_HEAP_ALIGN_NATIVE).1 = lub_heap_status_t.LUB_HEAP_FAILED ∧
    events_since sbrkRunning (malloc sbrkPlatform 64 sbrkRunning 200).2 =
      [Event.lub_heap_realloc 8192 0 200 lub_heap_align_t.LUB_HEAP_ALIGN_NATIVE
         lub_heap_status_t.LUB_HEAP_FAILED 0,
       Event.sbrk 131072 16384,
       Event.lub_heap_add_segment 8192 16384 131072,
       Event.lub_heap_realloc 8192 0 200 lub_heap_align_t.LUB_HEAP_ALIGN_NATIVE
         lub_heap_status_t.LUB_HEAP_OK 4296] ∧
    events_since sbrkRunning (realloc sbrkPlatform 64 sbrkRunning 4100 200).2 =
      [Event.lub_heap_realloc 8192 4100 200 lub_heap_align_t.LUB_HEAP_ALIGN_NATIVE
         lub_heap_status_t.LUB_HEAP_FAILED 4100,
       Event.sbrk 131072 16384,
       Event.lub_heap_add_segment 8192 16384 131072,
       Event.lub_heap_realloc 8192 4100 200 lub_heap_align_t.LUB_HEAP_ALIGN_NATIVE
         lub_heap_status_t.LUB_HEAP_OK 4296] ∧
    events_since sbrkRunning (memalign sbrkPlatform 64 sbrkRunning 8 200).2 =
      [Event.lub_heap_realloc 8192 0 200 lub_heap_align_t.LUB_HEAP_ALIGN_2_POWER_3
         lub_heap_status_t.LUB_HEAP_FAILED 0,
       Event.sbrk 131072 16384,
       Event.lub_heap_add_segment 8192 16384 131072,
       Event.lub_heap_realloc 8192 0 200 lub_heap_align_t.LUB_HEAP_ALIGN_2_POWER_3
         lub_heap_status_t.LUB_HEAP_OK 4296] := by
  decide

/-- The pointer that `malloc` returns is the one the heap left, whatever the
final status. -/
theorem malloc_returns_heap_pointer {W : Type} (P : Platform W) (w : Nat)
    (s : sysheap_t W) (nBytes : Nat) :
    ∃ status, last_heap_result (events_since s (malloc P w s nBytes).2) =
      some (status, (malloc P w s nBytes).1) := by
  obtain ⟨added, ha, hr, hh⟩ := init_memory_extends P w s nBytes
  obtain ⟨rest, hrest⟩ := retry_block_extends P w (sysheap_init_memory P w s nBytes)
    0 nBytes lub_heap_align_t.LUB_HEAP_ALIGN_NATIVE "malloc" 0 nBytes
  have hst := retry_block_status P w (sysheap_init_memory P w s nBytes) 0 nBytes
    lub_heap_align_t.LUB_HEAP_ALIGN_NATIVE "malloc" 0 nBytes
  refine ⟨(retry_block P w (sysheap_init_memory P w s nBytes) 0 nBytes
    lub_heap_align_t.LUB_HEAP_ALIGN_NATIVE).1, ?_⟩
  rw [malloc_eq, events_since_append s _ _ added rest ha hrest,
    (silent_events added _ hr hh).2]
  exact hst.2

end Clish
